import Mathlib

set_option autoImplicit false
set_option maxHeartbeats 1000000

/- Shallow embedding of the discv5 service core: src/service.rs (the
   authoritative post-refactor service loop), src/config.rs, src/discv5.rs
   (ip_limiter), src/node_info.rs and src/transport.rs (MAX_PACKET_SIZE).
   Node ids, sockets and ENR payloads are abstracted to naturals.  Modules of
   the repository that are referenced from src/ but whose code is not under
   src/ (kbucket, rpc, ip_vote, query_pool, the permit/ban list) are modelled
   from the spec; each such definition is marked in its doc comment. -/

/-- Socket address (std::net::SocketAddr), abstracted to an ip and a port. -/
structure Socket where
  ip : Nat
  port : Nat
  deriving DecidableEq, Repr

/-- NodeAddress (node_info.rs): destination socket address and node id. -/
structure NodeAddress where
  socketAddr : Socket
  nodeId : Nat
  deriving DecidableEq, Repr

/-- Enr: signed node record.  Only the fields the service core reads are kept:
    the derived node id, the sequence number, the optional udp socket, the
    length of the RLP encoding (enr.encode().len()) and the /24 prefix of the
    ip (the only part of the ip that ip_limiter in discv5.rs compares). -/
structure Enr where
  nodeId : Nat
  seq : Nat
  udp : Option Socket
  encLen : Nat
  ipNet : Option Nat
  deriving DecidableEq, Repr

/-- Enr::set_udp_socket of the enr crate: rewrites the udp endpoint and
    re-signs the record, incrementing its sequence number (the signing Err
    path is not modelled; service.rs only proceeds on Ok). -/
def Enr.setUdpSocket (e : Enr) (s : Socket) : Enr :=
  { e with udp := some s, seq := e.seq + 1 }

/-- NodeContact (node_info.rs): a full ENR, or a raw public key plus address. -/
inductive NodeContact where
  | enr (e : Enr)
  | raw (publicKey : Nat) (addr : NodeAddress)
  deriving DecidableEq, Repr

def NodeContact.nodeId : NodeContact → Nat
  | .enr e => e.nodeId
  | .raw _ a => a.nodeId

/-- NodeContact::node_address (node_info.rs): for an ENR contact this needs
    the ENR's udp socket; call sites in service.rs unwrap the result with
    expect("Sanitized request"). -/
def NodeContact.nodeAddress : NodeContact → Option NodeAddress
  | .enr e => e.udp.map (fun s => { socketAddr := s, nodeId := e.nodeId })
  | .raw _ a => some a

/-- Modelled from the spec: RequestBody (rpc.rs is not under src/); the two
    request bodies the core implements. -/
inductive RequestBody where
  | ping (enrSeq : Nat)
  | findNode (distance : Nat)
  deriving DecidableEq, Repr

/-- Modelled from the spec: ResponseBody (rpc.rs is not under src/). -/
inductive ResponseBody where
  | pong (enrSeq : Nat) (ip : Nat) (port : Nat)
  | nodes (total : Nat) (nodes : List Enr)
  deriving DecidableEq, Repr

structure Request where
  id : Nat
  body : RequestBody
  deriving DecidableEq, Repr

structure Response where
  id : Nat
  body : ResponseBody
  deriving DecidableEq, Repr

/-- Modelled from the spec: response.match_request(req) is true iff the body
    kinds pair correctly (rpc.rs is not under src/). -/
def ResponseBody.matchRequest : ResponseBody → RequestBody → Bool
  | .pong _ _ _, .ping _ => true
  | .nodes _ _, .findNode _ => true
  | _, _ => false

/-- NodeStatus of a routing-table entry. -/
inductive NodeStatus where
  | connected
  | disconnected
  deriving DecidableEq, Repr

/-- The Discv5Event variants emitted by the embedded fragment of the service. -/
inductive Discv5Event where
  | discoveredE (e : Enr)
  | nodeInserted (nodeId : Nat)
  | socketUpdated (s : Socket)
  deriving DecidableEq, Repr

/-- Observable effects of the service loop: messages handed to the handler,
    events pushed on the event stream, and values sent on user callbacks. -/
inductive Out where
  | response (dst : NodeAddress) (r : Response)
  | request (c : NodeContact) (r : Request)
  | ev (e : Discv5Event)
  | callbackRet (v : Option Enr)
  deriving DecidableEq, Repr

/-- Association-list lookup; together with ainsert and aremove this models the
    FnvHashMap and HashMap fields of the Service struct. -/
def alookup {α : Type} : List (Nat × α) → Nat → Option α
  | [], _ => none
  | (k, v) :: rest, j => if k = j then some v else alookup rest j

def aremove {α : Type} : List (Nat × α) → Nat → List (Nat × α)
  | [], _ => []
  | (k, v) :: rest, j => if k = j then aremove rest j else (k, v) :: aremove rest j

/-- HashMap::insert keeps at most one binding per key. -/
def ainsert {α : Type} (l : List (Nat × α)) (j : Nat) (v : α) : List (Nat × α) :=
  (j, v) :: aremove l j

/-- Fuel-bounded floor of the base-2 logarithm; with fuel ≥ n it computes the
    usual value and reduces inside the kernel. -/
def log2fuel : Nat → Nat → Nat
  | 0, _ => 0
  | fuel + 1, n => if n < 2 then 0 else log2fuel fuel (n / 2) + 1

/-- Modelled from the spec: kbucket::Key::log2_distance (the kbucket module is
    not under src/): the log2 XOR distance in [1, 256] between two hashed
    keys, none when they coincide.  Node ids stand for their hashed keys. -/
def log2Distance (a b : Nat) : Option Nat :=
  if a = b then none else some (log2fuel (Nat.xor a b) (Nat.xor a b) + 1)

/-- One routing-table slot: the key preimage (node id), the stored ENR, the
    connection status, and whether the slot is the bucket's pending candidate. -/
structure BEntry where
  id : Nat
  enr : Enr
  status : NodeStatus
  pending : Bool
  deriving DecidableEq, Repr

/-- Modelled from the spec: the KBucketsTable (kbucket module not under src/),
    flattened to its entry list; bucket membership is recovered through
    log2Distance to the local id. -/
structure KBuckets where
  localId : Nat
  bucketIpLimit : Nat
  entries : List BEntry
  deriving Repr

/-- The four arms of kbucket::Entry as seen by the service code. -/
inductive EntryView where
  | present (e : Enr) (st : NodeStatus)
  | pending (e : Enr) (st : NodeStatus)
  | absent
  | selfEntry
  deriving DecidableEq, Repr

def findEntry : List BEntry → Nat → Option BEntry
  | [], _ => none
  | b :: rest, j => if b.id = j then some b else findEntry rest j

/-- Modelled from the spec: kbuckets.entry(&key). -/
def KBuckets.entryView (kb : KBuckets) (j : Nat) : EntryView :=
  if j = kb.localId then .selfEntry
  else
    match findEntry kb.entries j with
    | some b => if b.pending then .pending b.enr b.status else .present b.enr b.status
    | none => .absent

def updEntries (f : BEntry → BEntry) : List BEntry → Nat → List BEntry
  | [], _ => []
  | b :: rest, j => (if b.id = j then f b else b) :: updEntries f rest j

/-- Writing through kbucket::Entry::value() of a Present or Pending entry. -/
def KBuckets.updateValue (kb : KBuckets) (j : Nat) (e : Enr) : KBuckets :=
  { kb with entries := updEntries (fun b => { b with enr := e }) kb.entries j }

/-- kbucket::Entry::update(status). -/
def KBuckets.updateStatus (kb : KBuckets) (j : Nat) (st : NodeStatus) : KBuckets :=
  { kb with entries := updEntries (fun b => { b with status := st }) kb.entries j }

/-- ip_limiter (discv5.rs 1137-1152): enr may be inserted iff fewer than limit
    of the other records share its /24 prefix. -/
def ipLimiter (enr : Enr) (others : List Enr) (limit : Nat) : Bool :=
  match enr.ipNet with
  | none => true
  | some p => decide ((others.filterMap Enr.ipNet).count p < limit)

/-- Modelled from the spec: KBucketsTable::check runs the ip_limiter preflight
    against the other entries of the candidate's bucket. -/
def KBuckets.check (kb : KBuckets) (enr : Enr) : Bool :=
  let others := (kb.entries.filter (fun b =>
      decide (b.id ≠ enr.nodeId ∧
        log2Distance kb.localId b.id = log2Distance kb.localId enr.nodeId))).map BEntry.enr
  ipLimiter enr others kb.bucketIpLimit

inductive InsertResult where
  | inserted
  | full
  | pendingRes (disconnected : Nat)
  deriving DecidableEq, Repr

/-- Modelled from the spec: kbucket insertion (invariant I3): a bucket holds up
    to K = 16 entries; a full bucket whose least-recently-updated entry is
    Disconnected parks the candidate as pending and nominates that entry,
    otherwise the insert is rejected as Full. -/
def KBuckets.insert (kb : KBuckets) (enr : Enr) (st : NodeStatus) : KBuckets × InsertResult :=
  match log2Distance kb.localId enr.nodeId with
  | none => (kb, .full)
  | some d =>
    let bucket := kb.entries.filter (fun b =>
      !b.pending && (log2Distance kb.localId b.id == some d))
    if bucket.length < 16 then
      ({ kb with entries :=
          kb.entries ++ [{ id := enr.nodeId, enr := enr, status := st, pending := false }] },
       .inserted)
    else
      match bucket.find? (fun b => b.status == .disconnected) with
      | some old =>
        ({ kb with entries :=
            kb.entries ++ [{ id := enr.nodeId, enr := enr, status := st, pending := true }] },
         .pendingRes old.id)
      | none => (kb, .full)

/-- Modelled from the spec: kbuckets.nodes_by_distance(d) enumerates the
    entries of bucket d. -/
def KBuckets.nodesByDistance (kb : KBuckets) (d : Nat) : List BEntry :=
  kb.entries.filter (fun b => !b.pending && (log2Distance kb.localId b.id == some d))

/-- Modelled from the spec: the IP-vote pool (ip_vote module not under src/):
    one (most recent) vote per node id, with a minimum-support threshold. -/
structure IpVote where
  minSupport : Nat
  votes : List (Nat × Socket)
  deriving DecidableEq, Repr

def IpVote.insert (v : IpVote) (id : Nat) (s : Socket) : IpVote :=
  { v with votes := ainsert v.votes id s }

/-- Modelled from the spec: the socket with the highest multiplicity, provided
    its count reaches minSupport; ties keep the earlier candidate. -/
def IpVote.majority (v : IpVote) : Option Socket :=
  let sockets := v.votes.map Prod.snd
  match sockets.foldl (fun best s =>
      match best with
      | none => some s
      | some b => if sockets.count b < sockets.count s then some s else some b) none with
  | none => none
  | some b => if v.minSupport ≤ sockets.count b then some b else none

/-- Modelled from the spec: the slice of per-query state the service loop
    touches (query_pool module not under src/). -/
structure Query where
  untrustedEnrs : List Enr
  failed : List Nat
  succeeded : List (Nat × List Enr)
  deriving DecidableEq, Repr

/-- Discv5Config (config.rs): the fields the embedded service functions read. -/
structure Config where
  enrUpdate : Bool
  enrPeerUpdateMin : Nat
  ipLimit : Bool
  tableFilter : Enr → Bool

/-- Discv5Config::default (config.rs 74-90), restricted to the embedded fields. -/
def Config.default : Config :=
  { enrUpdate := true, enrPeerUpdateMin := 10, ipLimit := false, tableFilter := fun _ => true }

structure Discv5ConfigBuilder where
  config : Config

/-- Discv5ConfigBuilder::enr_peer_update_min (config.rs 147-153): panics
    (none) for min < 2, stores the value otherwise. -/
def Discv5ConfigBuilder.enrPeerUpdateMin (b : Discv5ConfigBuilder) (m : Nat) :
    Option Discv5ConfigBuilder :=
  if m < 2 then none
  else some { b with config := { b.config with enrPeerUpdateMin := m } }

/-- ActiveRequest (service.rs 112-122); the one-shot callback is abstracted to
    whether it is present. -/
structure ActiveRequest where
  contact : NodeContact
  body : RequestBody
  queryId : Option Nat
  hasCallback : Bool
  deriving DecidableEq, Repr

/-- NodesResponse (service.rs 126-140): fragment count and the filtered nodes
    received so far; Default is count 1 with no nodes. -/
structure NodesAcc where
  count : Nat
  received : List Enr
  deriving DecidableEq, Repr

/-- The mutable state of the Service task (service.rs 67-109).  The permit/ban
    list (PERMIT_BAN_LIST, outside src/) is modelled as the banList field, and
    the rand::random() request-id supply as the nextId counter. -/
structure ServiceState where
  config : Config
  localEnr : Enr
  kbuckets : KBuckets
  queries : List (Nat × Query)
  activeRequests : List (Nat × ActiveRequest)
  activeNodesResponses : List (Nat × NodesAcc)
  ipVotes : Option IpVote
  banList : List NodeAddress
  nextId : Nat

/-- send_rpc_request (service.rs 802-817): insert the request under a fresh id
    and hand it to the handler. -/
def sendRpcRequest (s : ServiceState) (ar : ActiveRequest) : ServiceState × List Out :=
  ({ s with nextId := s.nextId + 1,
            activeRequests := ainsert s.activeRequests s.nextId ar },
   [.request ar.contact { id := s.nextId, body := ar.body }])

/-- send_ping (service.rs 645-656). -/
def sendPing (s : ServiceState) (enr : Enr) : ServiceState × List Out :=
  sendRpcRequest s
    { contact := .enr enr, body := .ping s.localEnr.seq, queryId := none, hasCallback := false }

def pingList (s : ServiceState) : List Enr → ServiceState × List Out
  | [] => (s, [])
  | e :: rest =>
    let p := sendPing s e
    let q := pingList p.1 rest
    (q.1, p.2 ++ q.2)

/-- ping_connected_peers (service.rs 658-677): ping every Connected entry of
    the routing table. -/
def pingConnectedPeers (s : ServiceState) : ServiceState × List Out :=
  pingList s
    ((s.kbuckets.entries.filter (fun b => !b.pending && (b.status == .connected))).map BEntry.enr)

/-- request_enr (service.rs 680-693). -/
def requestEnr (s : ServiceState) (c : NodeContact) (cb : Bool) : ServiceState × List Out :=
  sendRpcRequest s { contact := c, body := .findNode 0, queryId := none, hasCallback := cb }

/-- find_enr (service.rs 371-389): the routing table first, then the untrusted
    ENRs of ongoing queries. -/
def findEnr (s : ServiceState) (j : Nat) : Option Enr :=
  match s.kbuckets.entryView j with
  | .present e _ => some e
  | _ => (s.queries.filterMap (fun p => p.2.untrustedEnrs.find? (fun e => e.nodeId == j))).head?

/-- MAX_PACKET_SIZE (transport.rs 14). -/
def MAX_PACKET_SIZE : Nat := 1280

/-- The greedy fragment loop of send_nodes_response (service.rs 731-750):
    cur is the fragment being filled (its payload is totalSize) and acc holds
    the finished fragments in reverse. -/
def packEnrs : List Enr → List Enr → Nat → List (List Enr) → List (List Enr)
  | [], cur, _, acc => (cur :: acc).reverse
  | e :: rest, cur, totalSize, acc =>
    if e.encLen + totalSize < MAX_PACKET_SIZE - 92 then
      packEnrs rest (cur ++ [e]) (totalSize + e.encLen) acc
    else
      packEnrs rest [e] e.encLen (cur :: acc)

/-- The node list of send_nodes_response (service.rs 698-711): bucket d minus
    the requester. -/
def responseNodes (kb : KBuckets) (na : NodeAddress) (d : Nat) : List Enr :=
  ((kb.nodesByDistance d).filter (fun b => b.id != na.nodeId)).map BEntry.enr

/-- send_nodes_response (service.rs 697-778): an empty result yields a single
    empty NODES with total 1; otherwise the greedy fragments are all sent
    under the same rpc id with total = fragment count. -/
def sendNodesResponse (kb : KBuckets) (na : NodeAddress) (rid d : Nat) : List Out :=
  let nodes := responseNodes kb na d
  if nodes.isEmpty then
    [.response na { id := rid, body := .nodes 1 [] }]
  else
    let frags := packEnrs nodes [] 0 []
    frags.map (fun ns => .response na { id := rid, body := .nodes frags.length ns })

/-- The Ping arm of handle_rpc_request for a known peer (service.rs 415-456):
    request an ENR update first when the stored seq is stale, then answer with
    a PONG built from the local seq and the observed source socket. -/
def pingReply (s : ServiceState) (na : NodeAddress) (rid : Nat) (stored : Enr) (enrSeq : Nat) :
    ServiceState × List Out :=
  let p := if stored.seq < enrSeq then requestEnr s (.enr stored) false else (s, [])
  (p.1, p.2 ++
    [.response na { id := rid, body := .pong p.1.localEnr.seq na.socketAddr.ip na.socketAddr.port }])

/-- handle_rpc_request (service.rs 393-459). -/
def handleRpcRequest (s : ServiceState) (na : NodeAddress) (req : Request) :
    ServiceState × List Out :=
  match req.body with
  | .findNode d =>
    if d = 0 then (s, [.response na { id := req.id, body := .nodes 1 [s.localEnr] }])
    else (s, sendNodesResponse s.kbuckets na req.id d)
  | .ping enrSeq =>
    match s.kbuckets.entryView na.nodeId with
    | .present e _ => pingReply s na req.id e enrSeq
    | .pending e _ => pingReply s na req.id e enrSeq
    | _ => (s, [])

/-- The routing-table refresh of discovered (service.rs 838-864) for one ENR:
    update a Present or Pending entry only when the incoming seq is strictly
    newer, subject to the table filter and the optional ip limit. -/
def discoveredStep (cfg : Config) (kb : KBuckets) (e : Enr) : KBuckets :=
  if cfg.tableFilter e then
    if !cfg.ipLimit || kb.check e then
      match kb.entryView e.nodeId with
      | .present old _ => if old.seq < e.seq then kb.updateValue e.nodeId e else kb
      | .pending old _ => if old.seq < e.seq then kb.updateValue e.nodeId e else kb
      | _ => kb
    else kb
  else kb

def discoveredKb (cfg : Config) : KBuckets → List Enr → KBuckets
  | kb, [] => kb
  | kb, e :: rest => discoveredKb cfg (discoveredStep cfg kb e) rest

/-- Modelled from the spec: merging discovered records into the query target's
    untrusted ENRs, deduplicated by node id (service.rs 871-882). -/
def Query.addUntrusted (q : Query) (l : List Enr) : Query :=
  l.foldl (fun q e =>
    if q.untrustedEnrs.any (fun x => x.nodeId == e.nodeId) then q
    else { q with untrustedEnrs := q.untrustedEnrs ++ [e] }) q

/-- discovered (service.rs 829-887): emit Discovered for every foreign ENR,
    refresh stored ENRs with strictly newer seqs, then feed the query. -/
def discovered (s : ServiceState) (source : Nat) (enrs : List Enr) (qid : Option Nat) :
    ServiceState × List Out :=
  let others := enrs.filter (fun e => e.nodeId != s.localEnr.nodeId)
  let s1 := { s with kbuckets := discoveredKb s.config s.kbuckets others }
  let outs := others.map (fun e => Out.ev (.discoveredE e))
  match qid with
  | none => (s1, outs)
  | some q =>
    match alookup s1.queries q with
    | none => (s1, outs)
    | some qu =>
      let qu := qu.addUntrusted others
      let qu := { qu with succeeded := qu.succeeded ++ [(source, others)] }
      ({ s1 with queries := ainsert s1.queries q qu }, outs)

/-- The entry dispatch of connection_updated (service.rs 916-967). -/
def connectionUpdatedEntry (s : ServiceState) (nodeId : Nat) (enrOpt : Option Enr)
    (newStatus : NodeStatus) : ServiceState × List Out :=
  match s.kbuckets.entryView nodeId with
  | .present _ old =>
    let k1 := match enrOpt with | some e => s.kbuckets.updateValue nodeId e | none => s.kbuckets
    let k2 := if old = newStatus then k1 else k1.updateStatus nodeId newStatus
    ({ s with kbuckets := k2 }, [])
  | .pending _ old =>
    let k1 := match enrOpt with | some e => s.kbuckets.updateValue nodeId e | none => s.kbuckets
    let k2 := if old = newStatus then k1 else k1.updateStatus nodeId newStatus
    ({ s with kbuckets := k2 }, [])
  | .absent =>
    if newStatus = .connected then
      match enrOpt with
      | some enr =>
        match s.kbuckets.insert enr newStatus with
        | (k, .inserted) => ({ s with kbuckets := k }, [.ev (.nodeInserted nodeId)])
        | (k, .full) => ({ s with kbuckets := k }, [])
        | (k, .pendingRes disc) =>
          let s1 := { s with kbuckets := k }
          match findEnr s1 disc with
          | some e => sendPing s1 e
          | none => (s1, [])
      | none => (s, [])
    else (s, [])
  | .selfEntry => (s, [])

/-- connection_updated (service.rs 890-967): the table filter and the ip-limit
    downgrade apply only when an ENR is supplied. -/
def connectionUpdated (s : ServiceState) (nodeId : Nat) (enrOpt : Option Enr)
    (newStatus : NodeStatus) : ServiceState × List Out :=
  match enrOpt with
  | some enr =>
    if !s.config.tableFilter enr then (s, [])
    else
      let st := if s.config.ipLimit && !s.kbuckets.check enr then NodeStatus.disconnected
                else newStatus
      connectionUpdatedEntry s nodeId (some enr) st
  | none => connectionUpdatedEntry s nodeId none newStatus

/-- The distance filter of the Nodes arm (service.rs 512-544): for a non-zero
    requested distance keep only records at exactly that log2 distance from
    the peer, for distance 0 keep only the peer's own record. -/
def filterByDistance (peerId d : Nat) (ns : List Enr) : List Enr :=
  if d ≠ 0 then ns.filter (fun e => log2Distance peerId e.nodeId == some d)
  else ns.filter (fun e => log2Distance peerId e.nodeId == (none : Option Nat))

/-- Modelled from the spec: PERMIT_BAN_LIST.write().ban(addr) (the permit/ban
    list is not under src/); the contact's address is unwrapped as in the
    source's expect("Sanitized request"). -/
def banContact (s : ServiceState) (c : NodeContact) : ServiceState :=
  match c.nodeAddress with
  | some a => { s with banList := a :: s.banList }
  | none => s

/-- The Nodes arm of handle_rpc_response (service.rs 480-589); s0 already has
    the active request removed and d is the distance of the recorded FindNode. -/
def handleNodes (s0 : ServiceState) (id : Nat) (ar : ActiveRequest) (d total : Nat)
    (ns : List Enr) : ServiceState × List Out :=
  let nodeId := ar.contact.nodeId
  if ar.hasCallback then
    if d ≠ 0 then (s0, []) else (s0, [.callbackRet ns.getLast?])
  else
    let filtered := filterByDistance nodeId d ns
    let s1 := if d ≠ 0 ∧ filtered.length < ns.length then banContact s0 ar.contact else s0
    if 1 < total then
      let current := (alookup s1.activeNodesResponses nodeId).getD { count := 1, received := [] }
      let s2 := { s1 with activeNodesResponses := aremove s1.activeNodesResponses nodeId }
      if current.count < 5 ∧ current.count < total then
        ({ s2 with
            activeNodesResponses := ainsert s2.activeNodesResponses nodeId
              { count := current.count + 1, received := current.received ++ filtered },
            activeRequests := ainsert s2.activeRequests id ar }, [])
      else
        let s3 := { s2 with activeNodesResponses := aremove s2.activeNodesResponses nodeId }
        discovered s3 nodeId (current.received ++ filtered) ar.queryId
    else
      let s3 := { s1 with activeNodesResponses := aremove s1.activeNodesResponses nodeId }
      discovered s3 nodeId filtered ar.queryId

/-- The ip-vote prefix of the Pong arm (service.rs 590-612): record the vote
    and, when the majority socket differs from the local ENR's udp socket,
    emit SocketUpdated, rewrite the local ENR's udp endpoint and re-ping every
    connected peer. -/
def pongVote (s0 : ServiceState) (nodeId : Nat) (sock : Socket) : ServiceState × List Out :=
  match s0.ipVotes with
  | some v =>
    let v := v.insert nodeId sock
    let s1 := { s0 with ipVotes := some v }
    match v.majority with
    | some m =>
      if some m ≠ s0.localEnr.udp then
        let s2 := { s1 with localEnr := s1.localEnr.setUdpSocket m }
        let p := pingConnectedPeers s2
        (p.1, Out.ev (.socketUpdated m) :: p.2)
      else (s1, [])
    | none => (s1, [])
  | none => (s0, [])

/-- The Pong arm of handle_rpc_response (service.rs 590-631): record the ip
    vote, possibly rotate the local socket and re-ping connected peers, then
    refresh a stale peer ENR and mark the peer Connected. -/
def handlePong (s0 : ServiceState) (ar : ActiveRequest) (enrSeq ip port : Nat) :
    ServiceState × List Out :=
  let nodeId := ar.contact.nodeId
  let voted := pongVote s0 nodeId { ip := ip, port := port }
  let s1 := voted.1
  match findEnr s1 nodeId with
  | some enr =>
    let p :=
      if enr.seq < enrSeq then
        sendRpcRequest s1
          { contact := ar.contact, body := .findNode 0, queryId := none, hasCallback := false }
      else (s1, [])
    let q := connectionUpdated p.1 nodeId (some enr) .connected
    (q.1, voted.2 ++ p.2 ++ q.2)
  | none => (s1, voted.2)

/-- handle_rpc_response (service.rs 462-640): the active request is removed up
    front; a mismatched response type is dropped. -/
def handleRpcResponse (s : ServiceState) (resp : Response) : ServiceState × List Out :=
  match alookup s.activeRequests resp.id with
  | none => (s, [])
  | some ar =>
    let s0 := { s with activeRequests := aremove s.activeRequests resp.id }
    if resp.body.matchRequest ar.body then
      match resp.body, ar.body with
      | .nodes total ns, .findNode d => handleNodes s0 resp.id ar d total ns
      | .pong q i p, .ping _ => handlePong s0 ar q i p
      | _, _ => (s0, [])
    else (s0, [])

/-- Modelled from the spec: Query::on_failure records the failed peer
    (query_pool module not under src/). -/
def queryOnFailure (s : ServiceState) (qid nodeId : Nat) : ServiceState :=
  match alookup s.queries qid with
  | some q => { s with queries := ainsert s.queries qid { q with failed := q.failed ++ [nodeId] } }
  | none => s

/-- The request-kind dispatch of rpc_failure (service.rs 992-1043): a failed
    FindNode with a stored accumulator delivers the partial nodes (when any)
    to discovered; otherwise the failure is recorded on the associated query. -/
def rpcFailureStep (s0 : ServiceState) (ar : ActiveRequest) : ServiceState × List Out :=
  let nodeId := ar.contact.nodeId
  match ar.body with
  | .findNode _ =>
    match alookup s0.activeNodesResponses nodeId with
    | some acc =>
      let s1 := { s0 with activeNodesResponses := aremove s0.activeNodesResponses nodeId }
      if acc.received.isEmpty then (s1, [])
      else discovered s1 nodeId acc.received ar.queryId
    | none =>
      match ar.queryId with
      | some qid => (queryOnFailure s0 qid nodeId, [])
      | none => (s0, [])
  | _ =>
    match ar.queryId with
    | some qid => (queryOnFailure s0 qid nodeId, [])
    | none => (s0, [])

/-- rpc_failure (service.rs 982-1048). -/
def rpcFailure (s : ServiceState) (id : Nat) : ServiceState × List Out :=
  match alookup s.activeRequests id with
  | none => (s, [])
  | some ar =>
    let s0 := { s with activeRequests := aremove s.activeRequests id }
    if ar.hasCallback then (s0, [.callbackRet none])
    else
      let step := rpcFailureStep s0 ar
      let q := connectionUpdated step.1 ar.contact.nodeId none .disconnected
      (q.1, step.2 ++ q.2)

/-- Feeding a list of responses to handle_rpc_response in order, collecting
    all outputs; used to state end-to-end aggregation behaviour. -/
def runResponses (s : ServiceState) : List Response → ServiceState × List Out
  | [] => (s, [])
  | r :: rest =>
    let p := handleRpcResponse s r
    let q := runResponses p.1 rest
    (q.1, p.2 ++ q.2)

/-- The total encoded-ENR payload of one NODES fragment. -/
def enrPayload (ns : List Enr) : Nat := (ns.map Enr.encLen).sum

/- Association-list lemmas. -/

theorem alookup_ainsert_self {α : Type} (l : List (Nat × α)) (j : Nat) (v : α) :
    alookup (ainsert l j v) j = some v := by
  simp [ainsert, alookup]

theorem alookup_aremove_self {α : Type} (l : List (Nat × α)) (j : Nat) :
    alookup (aremove l j) j = none := by
  induction l with
  | nil => rfl
  | cons p rest ih =>
    obtain ⟨k, v⟩ := p
    by_cases h : k = j
    · simpa [aremove, h] using ih
    · simp [aremove, alookup, h, ih]

theorem alookup_aremove_ne {α : Type} (l : List (Nat × α)) (j j' : Nat) (h : j' ≠ j) :
    alookup (aremove l j) j' = alookup l j' := by
  induction l with
  | nil => rfl
  | cons p rest ih =>
    obtain ⟨k, v⟩ := p
    simp only [aremove, alookup]
    by_cases hk : k = j
    · subst hk
      rw [if_pos rfl, ih, if_neg (fun e : k = j' => h e.symm)]
    · rw [if_neg hk]
      by_cases hk' : k = j'
      · simp [alookup, hk']
      · simp [alookup, hk', ih]

theorem alookup_ainsert_ne {α : Type} (l : List (Nat × α)) (j j' : Nat) (v : α) (h : j' ≠ j) :
    alookup (ainsert l j v) j' = alookup l j' := by
  have hne : ¬ (j = j') := fun e => h e.symm
  simp [ainsert, alookup, hne, alookup_aremove_ne l j j' h]

theorem aremove_keyFilter {α : Type} (l : List (Nat × α)) (j : Nat) :
    (aremove l j).filter (fun p => p.1 == j) = [] := by
  induction l with
  | nil => rfl
  | cons p rest ih =>
    obtain ⟨k, v⟩ := p
    by_cases h : k = j
    · simpa [aremove, h] using ih
    · simp [aremove, List.filter, h, ih]

theorem ainsert_keyFilter {α : Type} (l : List (Nat × α)) (j : Nat) (v : α) :
    (ainsert l j v).filter (fun p => p.1 == j) = [(j, v)] := by
  simp [ainsert, List.filter, aremove_keyFilter]

/- enrPayload and packEnrs lemmas. -/

theorem enrPayload_nil : enrPayload [] = 0 := rfl

theorem enrPayload_snoc (l : List Enr) (e : Enr) :
    enrPayload (l ++ [e]) = enrPayload l + e.encLen := by
  simp [enrPayload]

theorem packEnrs_ne_nil (l : List Enr) : ∀ (cur : List Enr) (ts : Nat) (acc : List (List Enr)),
    packEnrs l cur ts acc ≠ [] := by
  induction l with
  | nil => intro cur ts acc; simp [packEnrs]
  | cons e rest ih =>
    intro cur ts acc
    unfold packEnrs
    split
    · exact ih _ _ _
    · exact ih _ _ _

theorem packEnrs_payload (l : List Enr) : ∀ (cur : List Enr) (ts : Nat) (acc : List (List Enr)),
    (∀ e ∈ l, e.encLen < MAX_PACKET_SIZE - 92) →
    enrPayload cur = ts → ts < MAX_PACKET_SIZE - 92 →
    (∀ f ∈ acc, enrPayload f < MAX_PACKET_SIZE - 92) →
    ∀ f ∈ packEnrs l cur ts acc, enrPayload f < MAX_PACKET_SIZE - 92 := by
  induction l with
  | nil =>
    intro cur ts acc _ hcur hts hacc f hf
    simp only [packEnrs, List.mem_reverse, List.mem_cons] at hf
    rcases hf with rfl | hf
    · exact hcur ▸ hts
    · exact hacc f hf
  | cons e rest ih =>
    intro cur ts acc hl hcur hts hacc
    have he : e.encLen < MAX_PACKET_SIZE - 92 := hl e (by simp)
    have hl' : ∀ x ∈ rest, x.encLen < MAX_PACKET_SIZE - 92 := fun x hx => hl x (by simp [hx])
    unfold packEnrs
    split
    · rename_i hfit
      exact ih (cur ++ [e]) (ts + e.encLen) acc hl'
        (by simp [enrPayload_snoc, hcur]) (by omega) hacc
    · exact ih [e] e.encLen (cur :: acc) hl' (by simp [enrPayload]) he
        (by intro f hf; rcases List.mem_cons.mp hf with rfl | hf
            · exact hcur ▸ hts
            · exact hacc f hf)

/-- C1 (amended): send_nodes_response sends at least one NODES response; an
    empty bucket yields exactly one response with empty nodes and total 1; and
    provided every selected ENR encodes to fewer than MAX_PACKET_SIZE - 92
    bytes, every response carries the requester's address, the same rpc id, a
    total equal to the number of responses sent, and an encoded-ENR payload of
    at most MAX_PACKET_SIZE - 92 = 1188 bytes.  (The claimed bound of at most
    5 fragments does not hold: the greedy loop has no fragment cap.) -/
theorem sendNodesResponse_fragments (kb : KBuckets) (na : NodeAddress) (rid d : Nat)
    (hsz : ∀ e ∈ responseNodes kb na d, e.encLen < MAX_PACKET_SIZE - 92) :
    1 ≤ (sendNodesResponse kb na rid d).length ∧
    (responseNodes kb na d = [] →
      sendNodesResponse kb na rid d = [.response na { id := rid, body := .nodes 1 [] }]) ∧
    ∀ o ∈ sendNodesResponse kb na rid d, ∃ ns,
      o = .response na { id := rid, body := .nodes (sendNodesResponse kb na rid d).length ns } ∧
      enrPayload ns ≤ MAX_PACKET_SIZE - 92 := by
  by_cases hempty : responseNodes kb na d = []
  · refine ⟨?_, fun _ => ?_, ?_⟩ <;>
      simp [sendNodesResponse, hempty, enrPayload]
  · have hne : (responseNodes kb na d).isEmpty = false := by
      simpa [List.isEmpty_iff] using hempty
    have hpack := packEnrs_payload (responseNodes kb na d) [] 0 [] hsz rfl
      (by norm_num [MAX_PACKET_SIZE]) (by simp)
    have hlen : 1 ≤ (packEnrs (responseNodes kb na d) [] 0 []).length := by
      have := packEnrs_ne_nil (responseNodes kb na d) [] 0 []
      exact Nat.one_le_iff_ne_zero.mpr (by simpa [List.length_eq_zero] using this)
    refine ⟨?_, fun h => absurd h hempty, ?_⟩
    · simpa [sendNodesResponse, hne] using hlen
    · intro o ho
      simp only [sendNodesResponse, hne, Bool.false_eq_true, if_false, List.mem_map] at ho
      obtain ⟨ns, hns, rfl⟩ := ho
      exact ⟨ns, by simp [sendNodesResponse, hne], Nat.le_of_lt (hpack ns hns)⟩

/-- Concrete routing table for the C1 counterexample: bucket 5 of local id 0
    holds the full K = 16 entries (ids 16..31), each ENR encoding to 300
    bytes (the maximum ENR size). -/
def kbC1 : KBuckets :=
  { localId := 0, bucketIpLimit := 10,
    entries := (List.range 16).map (fun i =>
      { id := 16 + i,
        enr := { nodeId := 16 + i, seq := 1, udp := some { ip := 1, port := 1 },
                 encLen := 300, ipNet := none },
        status := .connected, pending := false }) }

def naC1 : NodeAddress := { socketAddr := { ip := 7, port := 7 }, nodeId := 100 }

/-- C1 (counterexample): on a full bucket of 16 ENRs of 300 encoded bytes the
    greedy loop produces 6 NODES responses, refuting the claimed bound of at
    most 5 fragments. -/
theorem sendNodesResponse_six_fragments :
    ¬ ((sendNodesResponse kbC1 naC1 7 5).length ≤ 5) := by decide

/-- C1 (witness). -/
theorem sendNodesResponse_fragments_witness :
    (∀ e ∈ responseNodes kbC1 naC1 4, e.encLen < MAX_PACKET_SIZE - 92) ∧
    (1 ≤ (sendNodesResponse kbC1 naC1 3 4).length ∧
      (responseNodes kbC1 naC1 4 = [] →
        sendNodesResponse kbC1 naC1 3 4 = [.response naC1 { id := 3, body := .nodes 1 [] }]) ∧
      ∀ o ∈ sendNodesResponse kbC1 naC1 3 4, ∃ ns,
        o = .response naC1
              { id := 3, body := .nodes (sendNodesResponse kbC1 naC1 3 4).length ns } ∧
        enrPayload ns ≤ MAX_PACKET_SIZE - 92) :=
  ⟨by decide, sendNodesResponse_fragments kbC1 naC1 3 4 (by decide)⟩

/-- C9: Discv5ConfigBuilder::enr_peer_update_min panics (modelled as none) for
    every argument strictly below 2 and stores the argument for every
    argument at least 2, leaving the rest of the builder unchanged. -/
theorem enrPeerUpdateMin_spec (b : Discv5ConfigBuilder) (m : Nat) :
    (m < 2 → b.enrPeerUpdateMin m = none) ∧
    (2 ≤ m → b.enrPeerUpdateMin m =
      some { b with config := { b.config with enrPeerUpdateMin := m } }) := by
  refine ⟨fun h => ?_, fun h => ?_⟩
  · simp [Discv5ConfigBuilder.enrPeerUpdateMin, h]
  · simp [Discv5ConfigBuilder.enrPeerUpdateMin, Nat.not_lt.mpr h]

def bldW : Discv5ConfigBuilder := { config := Config.default }

/-- C9 (witness). -/
theorem enrPeerUpdateMin_spec_witness :
    bldW.enrPeerUpdateMin 1 = none ∧
    bldW.enrPeerUpdateMin 7 =
      some { bldW with config := { bldW.config with enrPeerUpdateMin := 7 } } :=
  ⟨(enrPeerUpdateMin_spec bldW 1).1 (by decide), (enrPeerUpdateMin_spec bldW 7).2 (by decide)⟩

/- findEntry / updEntries / entryView lemmas. -/

theorem findEntry_id (l : List BEntry) (j : Nat) (b : BEntry) (h : findEntry l j = some b) :
    b.id = j := by
  induction l with
  | nil => cases h
  | cons a rest ih =>
    by_cases ha : a.id = j
    · simp only [findEntry, if_pos ha] at h
      cases h
      exact ha
    · simp only [findEntry, if_neg ha] at h
      exact ih h

theorem findEntry_updEntries_self (f : BEntry → BEntry) (hf : ∀ b, (f b).id = b.id)
    (l : List BEntry) (j : Nat) :
    findEntry (updEntries f l j) j = (findEntry l j).map f := by
  induction l with
  | nil => rfl
  | cons b rest ih =>
    by_cases hb : b.id = j
    · simp [updEntries, findEntry, hb, hf]
    · simp [updEntries, findEntry, hb, hf, ih]

theorem findEntry_updEntries_ne (f : BEntry → BEntry) (hf : ∀ b, (f b).id = b.id)
    (l : List BEntry) (j j' : Nat) (h : j' ≠ j) :
    findEntry (updEntries f l j) j' = findEntry l j' := by
  have hjj : ¬ (j = j') := fun e => h e.symm
  have hjj' : ¬ (j' = j) := h
  induction l with
  | nil => rfl
  | cons b rest ih =>
    by_cases hb : b.id = j
    · simp [updEntries, findEntry, hb, hf, hjj, ih]
    · by_cases hb' : b.id = j'
      · simp [updEntries, findEntry, hb, hb', hjj', ih]
      · simp [updEntries, findEntry, hb, hb', ih]

theorem entryView_present_elim (kb : KBuckets) (j : Nat) (e : Enr) (st : NodeStatus)
    (h : kb.entryView j = .present e st) :
    j ≠ kb.localId ∧ ∃ b, findEntry kb.entries j = some b ∧
      b.pending = false ∧ b.enr = e ∧ b.status = st := by
  unfold KBuckets.entryView at h
  by_cases hj : j = kb.localId
  · simp [hj] at h
  · refine ⟨hj, ?_⟩
    rw [if_neg hj] at h
    rcases hfe : findEntry kb.entries j with _ | b
    · rw [hfe] at h
      simp at h
    · rw [hfe] at h
      dsimp only at h
      split at h
      · simp at h
      · rename_i hbp
        simp only [EntryView.present.injEq] at h
        exact ⟨b, rfl, by simpa using hbp, h.1, h.2⟩

theorem entryView_pending_elim (kb : KBuckets) (j : Nat) (e : Enr) (st : NodeStatus)
    (h : kb.entryView j = .pending e st) :
    j ≠ kb.localId ∧ ∃ b, findEntry kb.entries j = some b ∧
      b.pending = true ∧ b.enr = e ∧ b.status = st := by
  unfold KBuckets.entryView at h
  by_cases hj : j = kb.localId
  · simp [hj] at h
  · refine ⟨hj, ?_⟩
    rw [if_neg hj] at h
    rcases hfe : findEntry kb.entries j with _ | b
    · rw [hfe] at h
      simp at h
    · rw [hfe] at h
      dsimp only at h
      split at h
      · rename_i hbp
        simp only [EntryView.pending.injEq] at h
        exact ⟨b, rfl, hbp, h.1, h.2⟩
      · simp at h

theorem entryView_of_findEntry (kb : KBuckets) (j : Nat) (b : BEntry)
    (hj : j ≠ kb.localId) (hfe : findEntry kb.entries j = some b) :
    kb.entryView j = if b.pending then .pending b.enr b.status else .present b.enr b.status := by
  unfold KBuckets.entryView
  rw [if_neg hj, hfe]

theorem entryView_present_updateValue (kb : KBuckets) (j : Nat) (e e' : Enr) (st : NodeStatus)
    (h : kb.entryView j = .present e st) :
    (kb.updateValue j e').entryView j = .present e' st := by
  obtain ⟨hj, b, hfe, hp, he, hst⟩ := entryView_present_elim kb j e st h
  have hfe' : findEntry (kb.updateValue j e').entries j = some { b with enr := e' } := by
    show findEntry (updEntries (fun b => { b with enr := e' }) kb.entries j) j = _
    rw [findEntry_updEntries_self (fun b => { b with enr := e' }) (fun _ => rfl), hfe]
    rfl
  have := entryView_of_findEntry (kb.updateValue j e') j { b with enr := e' } hj hfe'
  rw [this]
  simp [hp, hst]

theorem entryView_pending_updateValue (kb : KBuckets) (j : Nat) (e e' : Enr) (st : NodeStatus)
    (h : kb.entryView j = .pending e st) :
    (kb.updateValue j e').entryView j = .pending e' st := by
  obtain ⟨hj, b, hfe, hp, he, hst⟩ := entryView_pending_elim kb j e st h
  have hfe' : findEntry (kb.updateValue j e').entries j = some { b with enr := e' } := by
    show findEntry (updEntries (fun b => { b with enr := e' }) kb.entries j) j = _
    rw [findEntry_updEntries_self (fun b => { b with enr := e' }) (fun _ => rfl), hfe]
    rfl
  have := entryView_of_findEntry (kb.updateValue j e') j { b with enr := e' } hj hfe'
  rw [this]
  simp [hp, hst]

theorem entryView_present_updateStatus (kb : KBuckets) (j : Nat) (e : Enr) (st st' : NodeStatus)
    (h : kb.entryView j = .present e st) :
    (kb.updateStatus j st').entryView j = .present e st' := by
  obtain ⟨hj, b, hfe, hp, he, hst⟩ := entryView_present_elim kb j e st h
  have hfe' : findEntry (kb.updateStatus j st').entries j = some { b with status := st' } := by
    show findEntry (updEntries (fun b => { b with status := st' }) kb.entries j) j = _
    rw [findEntry_updEntries_self (fun b => { b with status := st' }) (fun _ => rfl), hfe]
    rfl
  have := entryView_of_findEntry (kb.updateStatus j st') j { b with status := st' } hj hfe'
  rw [this]
  simp [hp, he]

theorem entryView_pending_updateStatus (kb : KBuckets) (j : Nat) (e : Enr) (st st' : NodeStatus)
    (h : kb.entryView j = .pending e st) :
    (kb.updateStatus j st').entryView j = .pending e st' := by
  obtain ⟨hj, b, hfe, hp, he, hst⟩ := entryView_pending_elim kb j e st h
  have hfe' : findEntry (kb.updateStatus j st').entries j = some { b with status := st' } := by
    show findEntry (updEntries (fun b => { b with status := st' }) kb.entries j) j = _
    rw [findEntry_updEntries_self (fun b => { b with status := st' }) (fun _ => rfl), hfe]
    rfl
  have := entryView_of_findEntry (kb.updateStatus j st') j { b with status := st' } hj hfe'
  rw [this]
  simp [hp, he]

/- Frame lemmas for the state-passing service functions. -/

theorem sendRpcRequest_shape (s : ServiceState) (ar : ActiveRequest) :
    (sendRpcRequest s ar).1 =
      { s with nextId := s.nextId + 1,
               activeRequests := ainsert s.activeRequests s.nextId ar } ∧
    (sendRpcRequest s ar).2 = [.request ar.contact { id := s.nextId, body := ar.body }] :=
  ⟨rfl, rfl⟩

theorem pingList_proj (l : List Enr) : ∀ s : ServiceState,
    (pingList s l).1.banList = s.banList ∧
    (pingList s l).1.localEnr = s.localEnr ∧
    (pingList s l).1.ipVotes = s.ipVotes ∧
    (pingList s l).1.activeNodesResponses = s.activeNodesResponses ∧
    (pingList s l).1.queries = s.queries ∧
    (pingList s l).1.kbuckets = s.kbuckets ∧
    (pingList s l).1.config = s.config := by
  induction l with
  | nil => intro s; exact ⟨rfl, rfl, rfl, rfl, rfl, rfl, rfl⟩
  | cons e rest ih => intro s; exact ih (sendPing s e).1

theorem pingList_nextId (l : List Enr) : ∀ s : ServiceState,
    s.nextId ≤ (pingList s l).1.nextId := by
  induction l with
  | nil => intro s; exact Nat.le_refl _
  | cons e rest ih =>
    intro s
    exact Nat.le_trans (Nat.le_succ _) (ih (sendPing s e).1)

theorem pingList_lookup_lt (l : List Enr) : ∀ (s : ServiceState) (j : Nat), j < s.nextId →
    alookup (pingList s l).1.activeRequests j = alookup s.activeRequests j := by
  induction l with
  | nil => intro s j _; rfl
  | cons e rest ih =>
    intro s j h
    have h2 : alookup (pingList (sendPing s e).1 rest).1.activeRequests j =
        alookup ((sendPing s e).1).activeRequests j := ih _ j (Nat.lt_succ_of_lt h)
    have h3 : alookup ((sendPing s e).1).activeRequests j = alookup s.activeRequests j :=
      alookup_ainsert_ne _ _ _ _ (Nat.ne_of_lt h)
    exact h2.trans h3

theorem pingList_mem (l : List Enr) : ∀ (s : ServiceState) (e : Enr), e ∈ l →
    ∃ i, Out.request (.enr e) { id := i, body := .ping s.localEnr.seq } ∈ (pingList s l).2 := by
  induction l with
  | nil => intro s e h; cases h
  | cons a rest ih =>
    intro s e h
    rcases List.mem_cons.mp h with rfl | h
    · exact ⟨s.nextId, List.mem_append_left _ (by simp [sendPing, sendRpcRequest])⟩
    · obtain ⟨i, hi⟩ := ih (sendPing s a).1 e h
      exact ⟨i, List.mem_append_right _ hi⟩

theorem discovered_proj (s : ServiceState) (src : Nat) (enrs : List Enr) (qid : Option Nat) :
    (discovered s src enrs qid).1.banList = s.banList ∧
    (discovered s src enrs qid).1.activeRequests = s.activeRequests ∧
    (discovered s src enrs qid).1.activeNodesResponses = s.activeNodesResponses ∧
    (discovered s src enrs qid).1.ipVotes = s.ipVotes ∧
    (discovered s src enrs qid).1.localEnr = s.localEnr ∧
    (discovered s src enrs qid).1.nextId = s.nextId ∧
    (discovered s src enrs qid).1.config = s.config := by
  unfold discovered
  dsimp only
  split
  · exact ⟨rfl, rfl, rfl, rfl, rfl, rfl, rfl⟩
  · split
    · exact ⟨rfl, rfl, rfl, rfl, rfl, rfl, rfl⟩
    · exact ⟨rfl, rfl, rfl, rfl, rfl, rfl, rfl⟩

theorem discovered_outs (s : ServiceState) (src : Nat) (enrs : List Enr) (qid : Option Nat) :
    (discovered s src enrs qid).2 =
      (enrs.filter (fun e => e.nodeId != s.localEnr.nodeId)).map
        (fun e => Out.ev (.discoveredE e)) := by
  unfold discovered
  dsimp only
  split
  · rfl
  · split
    · rfl
    · rfl

theorem discovered_kbuckets (s : ServiceState) (src : Nat) (enrs : List Enr) (qid : Option Nat) :
    (discovered s src enrs qid).1.kbuckets =
      discoveredKb s.config s.kbuckets
        (enrs.filter (fun e => e.nodeId != s.localEnr.nodeId)) := by
  unfold discovered
  dsimp only
  split
  · rfl
  · split
    · rfl
    · rfl

theorem connectionUpdated_proj (s : ServiceState) (nodeId : Nat) (enrOpt : Option Enr)
    (newStatus : NodeStatus) :
    (connectionUpdated s nodeId enrOpt newStatus).1.banList = s.banList ∧
    (connectionUpdated s nodeId enrOpt newStatus).1.activeNodesResponses =
      s.activeNodesResponses ∧
    (connectionUpdated s nodeId enrOpt newStatus).1.ipVotes = s.ipVotes ∧
    (connectionUpdated s nodeId enrOpt newStatus).1.localEnr = s.localEnr ∧
    (connectionUpdated s nodeId enrOpt newStatus).1.queries = s.queries ∧
    (connectionUpdated s nodeId enrOpt newStatus).1.config = s.config := by
  unfold connectionUpdated connectionUpdatedEntry sendPing sendRpcRequest
  dsimp only
  repeat' split
  all_goals exact ⟨rfl, rfl, rfl, rfl, rfl, rfl⟩

theorem connectionUpdated_none_requests (s : ServiceState) (nodeId : Nat)
    (newStatus : NodeStatus) :
    (connectionUpdated s nodeId none newStatus).1.activeRequests = s.activeRequests ∧
    (connectionUpdated s nodeId none newStatus).1.nextId = s.nextId := by
  unfold connectionUpdated connectionUpdatedEntry
  dsimp only
  repeat' split
  all_goals exact ⟨rfl, rfl⟩

theorem connectionUpdated_lookup_lt (s : ServiceState) (nodeId : Nat) (enrOpt : Option Enr)
    (newStatus : NodeStatus) (j : Nat) (h : j < s.nextId) :
    alookup (connectionUpdated s nodeId enrOpt newStatus).1.activeRequests j =
      alookup s.activeRequests j := by
  unfold connectionUpdated connectionUpdatedEntry sendPing sendRpcRequest
  dsimp only
  repeat' split
  all_goals first
    | rfl
    | exact alookup_ainsert_ne _ _ _ _ (Nat.ne_of_lt h)

/-- C5: an incoming Ping from a peer with a Present or Pending routing-table
    entry is answered with a Pong carrying the local ENR's seq and the
    sender's observed source ip and port, and additionally triggers a
    FindNode{distance 0} ENR request to that peer exactly when the stored
    ENR's seq is strictly below the Ping's enr_seq; a Ping from a peer with no
    routing-table entry produces no response and leaves the state unchanged. -/
theorem handleRpcRequest_ping_spec (s : ServiceState) (na : NodeAddress) (rid enrSeq : Nat) :
    (∀ e st, (s.kbuckets.entryView na.nodeId = .present e st ∨
              s.kbuckets.entryView na.nodeId = .pending e st) →
      Out.response na
          { id := rid,
            body := .pong s.localEnr.seq na.socketAddr.ip na.socketAddr.port } ∈
        (handleRpcRequest s na { id := rid, body := .ping enrSeq }).2 ∧
      (e.seq < enrSeq →
        Out.request (.enr e) { id := s.nextId, body := .findNode 0 } ∈
          (handleRpcRequest s na { id := rid, body := .ping enrSeq }).2) ∧
      (¬ e.seq < enrSeq →
        handleRpcRequest s na { id := rid, body := .ping enrSeq } =
          (s, [.response na
            { id := rid,
              body := .pong s.localEnr.seq na.socketAddr.ip na.socketAddr.port }]))) ∧
    ((s.kbuckets.entryView na.nodeId = .absent ∨
      s.kbuckets.entryView na.nodeId = .selfEntry) →
      handleRpcRequest s na { id := rid, body := .ping enrSeq } = (s, [])) := by
  constructor
  · intro e st h
    have hred : handleRpcRequest s na { id := rid, body := .ping enrSeq } =
        pingReply s na rid e enrSeq := by
      rcases h with h | h <;> simp [handleRpcRequest, h]
    rw [hred]
    unfold pingReply requestEnr sendRpcRequest
    dsimp only
    by_cases hseq : e.seq < enrSeq
    · rw [if_pos hseq]
      refine ⟨by simp, fun _ => by simp, fun hn => absurd hseq hn⟩
    · rw [if_neg hseq]
      exact ⟨by simp, fun hy => absurd hy hseq, fun _ => by simp⟩
  · intro h
    rcases h with h | h <;> simp [handleRpcRequest, h]

def enr0 (i q : Nat) : Enr :=
  { nodeId := i, seq := q, udp := some { ip := i, port := 30303 }, encLen := 120, ipNet := none }

/-- A small concrete service state shared by the witnesses below. -/
def baseState : ServiceState :=
  { config := Config.default,
    localEnr := enr0 999 1,
    kbuckets := { localId := 999, bucketIpLimit := 10, entries := [] },
    queries := [], activeRequests := [], activeNodesResponses := [],
    ipVotes := none, banList := [], nextId := 50 }

def e5 : Enr := enr0 5 3

def s5 : ServiceState :=
  { baseState with kbuckets :=
      { localId := 999, bucketIpLimit := 10,
        entries := [{ id := 5, enr := e5, status := .connected, pending := false }] } }

def na5 : NodeAddress := { socketAddr := { ip := 44, port := 55 }, nodeId := 5 }

/-- C5 (witness): a known peer at stored seq 3 pinging with enr_seq 9 receives
    a Pong and is sent a FindNode{0} refresh. -/
theorem handleRpcRequest_ping_spec_witness :
    Out.response na5
        { id := 1,
          body := .pong s5.localEnr.seq na5.socketAddr.ip na5.socketAddr.port } ∈
      (handleRpcRequest s5 na5 { id := 1, body := .ping 9 }).2 ∧
    Out.request (.enr e5) { id := s5.nextId, body := .findNode 0 } ∈
      (handleRpcRequest s5 na5 { id := 1, body := .ping 9 }).2 := by
  have h := (handleRpcRequest_ping_spec s5 na5 1 9).1 e5 .connected (Or.inl (by decide))
  exact ⟨h.1, h.2.1 (by decide)⟩

/- Membership lemmas for the association-list operations. -/

theorem mem_aremove {α : Type} (l : List (Nat × α)) (j : Nat) (p : Nat × α)
    (h : p ∈ aremove l j) : p ∈ l := by
  induction l with
  | nil => cases h
  | cons q rest ih =>
    obtain ⟨k, v⟩ := q
    by_cases hk : k = j
    · rw [aremove, if_pos hk] at h
      exact List.mem_cons_of_mem _ (ih h)
    · rw [aremove, if_neg hk] at h
      rcases List.mem_cons.mp h with rfl | h
      · exact List.mem_cons_self _ _
      · exact List.mem_cons_of_mem _ (ih h)

theorem mem_ainsert {α : Type} (l : List (Nat × α)) (j : Nat) (v : α) (p : Nat × α)
    (h : p ∈ ainsert l j v) : p = (j, v) ∨ p ∈ l := by
  rcases List.mem_cons.mp h with rfl | h
  · exact Or.inl rfl
  · exact Or.inr (mem_aremove l j p h)

/- banContact helper lemmas. -/

theorem banContact_eq (s : ServiceState) (c : NodeContact) (addr : NodeAddress)
    (h : c.nodeAddress = some addr) :
    banContact s c = { s with banList := addr :: s.banList } := by
  unfold banContact
  rw [h]

theorem banIf_shape (c : Prop) [Decidable c] (s : ServiceState) (k : NodeContact) :
    ∃ bl, (if c then banContact s k else s) = { s with banList := bl } := by
  split
  · unfold banContact
    split
    · exact ⟨_, rfl⟩
    · exact ⟨s.banList, rfl⟩
  · exact ⟨s.banList, rfl⟩

theorem queryOnFailure_shape (s : ServiceState) (qid nodeId : Nat) :
    ∃ qs, queryOnFailure s qid nodeId = { s with queries := qs } := by
  unfold queryOnFailure
  split
  · exact ⟨_, rfl⟩
  · exact ⟨s.queries, rfl⟩

/- pongVote and handlePong lemmas. -/


theorem pingList_nextId_le (l : List Enr) (s : ServiceState) (j : Nat) (h : j ≤ s.nextId) :
    j ≤ (pingList s l).1.nextId :=
  Nat.le_trans h (pingList_nextId l s)

theorem pongVote_proj (s0 : ServiceState) (n : Nat) (sock : Socket) :
    s0.nextId ≤ (pongVote s0 n sock).1.nextId ∧
    (pongVote s0 n sock).1.activeNodesResponses = s0.activeNodesResponses ∧
    (pongVote s0 n sock).1.banList = s0.banList ∧
    (pongVote s0 n sock).1.queries = s0.queries ∧
    (pongVote s0 n sock).1.kbuckets = s0.kbuckets ∧
    (pongVote s0 n sock).1.config = s0.config ∧
    ∀ j, j < s0.nextId →
      alookup (pongVote s0 n sock).1.activeRequests j = alookup s0.activeRequests j := by
  unfold pongVote
  cases hv : s0.ipVotes with
  | none => exact ⟨Nat.le_refl _, rfl, rfl, rfl, rfl, rfl, fun j hj => rfl⟩
  | some v =>
    dsimp only
    cases hm : (v.insert n sock).majority with
    | none => exact ⟨Nat.le_refl _, rfl, rfl, rfl, rfl, rfl, fun j hj => rfl⟩
    | some m =>
      dsimp only
      by_cases hne : some m ≠ s0.localEnr.udp
      · rw [if_pos hne]
        refine ⟨pingList_nextId_le _ _ _ (Nat.le_refl _), (pingList_proj _ _).2.2.2.1,
          (pingList_proj _ _).1, (pingList_proj _ _).2.2.2.2.1, (pingList_proj _ _).2.2.2.2.2.1,
          (pingList_proj _ _).2.2.2.2.2.2, fun j hj => pingList_lookup_lt _ _ j hj⟩
      · rw [if_neg hne]
        exact ⟨Nat.le_refl _, rfl, rfl, rfl, rfl, rfl, fun j hj => rfl⟩

theorem handlePong_proj (s0 : ServiceState) (ar : ActiveRequest) (enrSeq ip port : Nat) :
    (handlePong s0 ar enrSeq ip port).1.activeNodesResponses = s0.activeNodesResponses ∧
    (handlePong s0 ar enrSeq ip port).1.banList = s0.banList ∧
    (handlePong s0 ar enrSeq ip port).1.queries = s0.queries ∧
    ∀ j, j < s0.nextId →
      alookup (handlePong s0 ar enrSeq ip port).1.activeRequests j =
        alookup s0.activeRequests j := by
  obtain ⟨hn, hacc, hban, hq, hkb, hcf, hlook⟩ :=
    pongVote_proj s0 ar.contact.nodeId { ip := ip, port := port }
  unfold handlePong
  dsimp only
  cases hf : findEnr (pongVote s0 ar.contact.nodeId { ip := ip, port := port }).1
      ar.contact.nodeId with
  | none => exact ⟨hacc, hban, hq, hlook⟩
  | some enr =>
    dsimp only
    by_cases hseq : enr.seq < enrSeq
    · rw [if_pos hseq]
      refine ⟨((connectionUpdated_proj _ _ _ _).2.1).trans hacc,
        ((connectionUpdated_proj _ _ _ _).1).trans hban,
        ((connectionUpdated_proj _ _ _ _).2.2.2.2.1).trans hq, ?_⟩
      intro j hj
      have hj1 : j < (pongVote s0 ar.contact.nodeId { ip := ip, port := port }).1.nextId :=
        Nat.lt_of_lt_of_le hj hn
      exact ((connectionUpdated_lookup_lt _ _ _ _ j (Nat.lt_succ_of_lt hj1)).trans
        (alookup_ainsert_ne _ _ _ _ (Nat.ne_of_lt hj1))).trans (hlook j hj)
    · rw [if_neg hseq]
      refine ⟨((connectionUpdated_proj _ _ _ _).2.1).trans hacc,
        ((connectionUpdated_proj _ _ _ _).1).trans hban,
        ((connectionUpdated_proj _ _ _ _).2.2.2.2.1).trans hq, ?_⟩
      intro j hj
      have hj1 : j < (pongVote s0 ar.contact.nodeId { ip := ip, port := port }).1.nextId :=
        Nat.lt_of_lt_of_le hj hn
      exact (connectionUpdated_lookup_lt _ _ _ _ j hj1).trans (hlook j hj)

/- Dispatch lemmas for handle_rpc_response. -/

theorem handleRpcResponse_nodes_eq (s : ServiceState) (id : Nat) (ar : ActiveRequest)
    (total : Nat) (ns : List Enr) (d : Nat)
    (hl : alookup s.activeRequests id = some ar) (hb : ar.body = .findNode d) :
    handleRpcResponse s { id := id, body := .nodes total ns } =
      handleNodes { s with activeRequests := aremove s.activeRequests id } id ar d total ns := by
  unfold handleRpcResponse
  dsimp only
  rw [hl]
  dsimp only
  rw [hb]
  rfl

theorem handleRpcResponse_pong_eq (s : ServiceState) (id : Nat) (ar : ActiveRequest)
    (q i p qs : Nat)
    (hl : alookup s.activeRequests id = some ar) (hb : ar.body = .ping qs) :
    handleRpcResponse s { id := id, body := .pong q i p } =
      handlePong { s with activeRequests := aremove s.activeRequests id } ar q i p := by
  unfold handleRpcResponse
  dsimp only
  rw [hl]
  dsimp only
  rw [hb]
  rfl

theorem queryOnFailure_requests (s : ServiceState) (qid nodeId : Nat) :
    (queryOnFailure s qid nodeId).activeRequests = s.activeRequests ∧
    (queryOnFailure s qid nodeId).activeNodesResponses = s.activeNodesResponses ∧
    (queryOnFailure s qid nodeId).banList = s.banList ∧
    (queryOnFailure s qid nodeId).kbuckets = s.kbuckets := by
  unfold queryOnFailure
  split
  · exact ⟨rfl, rfl, rfl, rfl⟩
  · exact ⟨rfl, rfl, rfl, rfl⟩

/-- C4: each outstanding rpc id owns exactly one activeRequests entry:
    send_rpc_request books exactly one entry under the fresh id and touches no
    other key; rpc_failure leaves no entry under the failed id; and a response
    whose body matches the recorded request leaves no entry under its id
    either, except that a multi-fragment (total > 1) Nodes response that is
    still awaiting fragments re-books the same request. -/
theorem activeRequests_discipline (s : ServiceState) :
    (∀ ar : ActiveRequest,
      alookup (sendRpcRequest s ar).1.activeRequests s.nextId = some ar ∧
      ((sendRpcRequest s ar).1.activeRequests.filter (fun q => q.1 == s.nextId)).length = 1 ∧
      ∀ j, j ≠ s.nextId →
        alookup (sendRpcRequest s ar).1.activeRequests j = alookup s.activeRequests j) ∧
    (∀ id, alookup (rpcFailure s id).1.activeRequests id = none) ∧
    (∀ (resp : Response) (ar : ActiveRequest),
      alookup s.activeRequests resp.id = some ar →
      resp.body.matchRequest ar.body = true →
      resp.id < s.nextId →
      alookup (handleRpcResponse s resp).1.activeRequests resp.id = none ∨
      (alookup (handleRpcResponse s resp).1.activeRequests resp.id = some ar ∧
       ∃ total ns, resp.body = .nodes total ns ∧ 1 < total)) := by
  refine ⟨?_, ?_, ?_⟩
  · intro ar
    refine ⟨alookup_ainsert_self _ _ _, ?_, fun j hj => alookup_ainsert_ne _ _ _ _ hj⟩
    show ((ainsert s.activeRequests s.nextId ar).filter (fun q => q.1 == s.nextId)).length = 1
    rw [ainsert_keyFilter]
    rfl
  · intro id
    unfold rpcFailure
    dsimp only
    cases hl : alookup s.activeRequests id with
    | none => exact hl
    | some ar =>
      dsimp only
      by_cases hcb : ar.hasCallback
      · rw [if_pos hcb]
        exact alookup_aremove_self _ _
      · rw [if_neg hcb]
        dsimp only
        rw [(connectionUpdated_none_requests _ _ _).1]
        unfold rpcFailureStep
        dsimp only
        repeat' split
        all_goals first
          | exact alookup_aremove_self _ _
          | (rw [(discovered_proj _ _ _ _).2.1]; exact alookup_aremove_self _ _)
          | (rw [(queryOnFailure_requests _ _ _).1]; exact alookup_aremove_self _ _)
  · intro resp ar hl hm hlt
    obtain ⟨rid, rbody⟩ := resp
    dsimp only at hl hm hlt ⊢
    cases hrb : rbody with
    | nodes total ns =>
      cases hab : ar.body with
      | ping qq =>
        rw [hrb, hab] at hm
        cases hm
      | findNode d =>
        subst hrb
        rw [handleRpcResponse_nodes_eq s rid ar total ns d hl hab]
        unfold handleNodes
        dsimp only
        by_cases hcb : ar.hasCallback
        · rw [if_pos hcb]
          split
          · exact Or.inl (alookup_aremove_self _ _)
          · exact Or.inl (alookup_aremove_self _ _)
        · rw [if_neg hcb]
          obtain ⟨bl, hbl⟩ := banIf_shape
            (d ≠ 0 ∧ (filterByDistance ar.contact.nodeId d ns).length <
              ns.length)
            { s with activeRequests := aremove s.activeRequests rid } ar.contact
          rw [hbl]
          dsimp only
          by_cases htot : 1 < total
          · rw [if_pos htot]
            split
            · exact Or.inr ⟨alookup_ainsert_self _ _ _, total, ns, rfl, htot⟩
            · rw [(discovered_proj _ _ _ _).2.1]
              exact Or.inl (alookup_aremove_self _ _)
          · rw [if_neg htot]
            rw [(discovered_proj _ _ _ _).2.1]
            exact Or.inl (alookup_aremove_self _ _)
    | pong q i p =>
      cases hab : ar.body with
      | findNode d =>
        rw [hrb, hab] at hm
        cases hm
      | ping qq =>
        subst hrb
        rw [handleRpcResponse_pong_eq s rid ar q i p qq hl hab]
        refine Or.inl ?_
        have hp := (handlePong_proj { s with activeRequests := aremove s.activeRequests rid }
          ar q i p).2.2.2 rid hlt
        rw [hp]
        exact alookup_aremove_self _ _

def ar4 : ActiveRequest :=
  { contact := .enr (enr0 5 3), body := .findNode 7, queryId := none, hasCallback := false }

def s4 : ServiceState := { baseState with activeRequests := [(42, ar4)] }

/-- C4 (witness). -/
theorem activeRequests_discipline_witness :
    alookup (rpcFailure s4 42).1.activeRequests 42 = none ∧
    (alookup (handleRpcResponse s4 { id := 42, body := .nodes 1 [] }).1.activeRequests 42 =
        none ∨
      (alookup (handleRpcResponse s4 { id := 42, body := .nodes 1 [] }).1.activeRequests 42 =
          some ar4 ∧
        ∃ total ns, (ResponseBody.nodes 1 []) = .nodes total ns ∧ 1 < total)) :=
  ⟨(activeRequests_discipline s4).2.1 42,
   (activeRequests_discipline s4).2.2 { id := 42, body := .nodes 1 [] } ar4
     (by decide) (by decide) (by decide)⟩

theorem handleNodes_banList (s0 : ServiceState) (id : Nat) (ar : ActiveRequest) (d total : Nat)
    (ns : List Enr) (addr : NodeAddress) (hcb : ar.hasCallback = false)
    (haddr : ar.contact.nodeAddress = some addr) :
    (handleNodes s0 id ar d total ns).1.banList =
      if d ≠ 0 ∧ (filterByDistance ar.contact.nodeId d ns).length < ns.length
      then addr :: s0.banList else s0.banList := by
  unfold handleNodes
  simp only [hcb, Bool.false_eq_true, if_false]
  by_cases hban : d ≠ 0 ∧ (filterByDistance ar.contact.nodeId d ns).length < ns.length
  · simp only [if_pos hban, banContact_eq s0 ar.contact addr haddr]
    split
    · split
      · rfl
      · exact (discovered_proj _ _ _ _).1
    · exact (discovered_proj _ _ _ _).1
  · simp only [if_neg hban]
    split
    · split
      · rfl
      · exact (discovered_proj _ _ _ _).1
    · exact (discovered_proj _ _ _ _).1

theorem handleNodes_outs_single (s0 : ServiceState) (id : Nat) (ar : ActiveRequest)
    (d total : Nat) (ns : List Enr) (hcb : ar.hasCallback = false) (htot : ¬ 1 < total) :
    (handleNodes s0 id ar d total ns).2 =
      ((filterByDistance ar.contact.nodeId d ns).filter
        (fun e => e.nodeId != s0.localEnr.nodeId)).map (fun e => Out.ev (.discoveredE e)) := by
  unfold handleNodes
  simp only [hcb, Bool.false_eq_true, if_false]
  obtain ⟨bl, hbl⟩ := banIf_shape
    (d ≠ 0 ∧ (filterByDistance ar.contact.nodeId d ns).length < ns.length) s0 ar.contact
  rw [hbl, if_neg htot, discovered_outs]

/-- C2: for a Nodes response to a recorded FindNode{d} request without user
    callback: the records kept for further processing are exactly those whose
    log2 distance from the peer equals the declared distance (d ≠ 0), or the
    peer's own record, log2 distance none (d = 0); the peer's NodeAddress is
    prepended to the process-wide ban list iff d ≠ 0 and at least one record
    was removed by the filter; and for a single-fragment response the
    Discovered events emitted are exactly the kept (non-local) records. -/
theorem handleRpcResponse_filter_ban (s : ServiceState) (id : Nat) (ar : ActiveRequest)
    (total : Nat) (ns : List Enr) (d : Nat) (addr : NodeAddress)
    (hl : alookup s.activeRequests id = some ar) (hb : ar.body = .findNode d)
    (hcb : ar.hasCallback = false) (haddr : ar.contact.nodeAddress = some addr) :
    (∀ e, e ∈ filterByDistance ar.contact.nodeId d ns ↔ e ∈ ns ∧
        log2Distance ar.contact.nodeId e.nodeId = (if d ≠ 0 then some d else none)) ∧
    (handleRpcResponse s { id := id, body := .nodes total ns }).1.banList =
      (if d ≠ 0 ∧ (filterByDistance ar.contact.nodeId d ns).length < ns.length
       then addr :: s.banList else s.banList) ∧
    (¬ 1 < total →
      (handleRpcResponse s { id := id, body := .nodes total ns }).2 =
        ((filterByDistance ar.contact.nodeId d ns).filter
          (fun e => e.nodeId != s.localEnr.nodeId)).map (fun e => Out.ev (.discoveredE e))) := by
  refine ⟨?_, ?_, ?_⟩
  · intro e
    by_cases hd : d = 0 <;> simp [filterByDistance, hd, List.mem_filter]
  · rw [handleRpcResponse_nodes_eq s id ar total ns d hl hb]
    exact handleNodes_banList _ id ar d total ns addr hcb haddr
  · intro htot
    rw [handleRpcResponse_nodes_eq s id ar total ns d hl hb]
    exact handleNodes_outs_single _ id ar d total ns hcb htot

def ar2 : ActiveRequest :=
  { contact := .enr (enr0 0 1), body := .findNode 5, queryId := none, hasCallback := false }

def s2st : ServiceState := { baseState with activeRequests := [(7, ar2)] }

def addr2 : NodeAddress := { socketAddr := { ip := 0, port := 30303 }, nodeId := 0 }

/-- C2 (witness): a peer answering FindNode{5} with one record at distance 5
    and one at distance 2 gets the bad record dropped and its address banned. -/
theorem handleRpcResponse_filter_ban_witness :
    (∀ e, e ∈ filterByDistance ar2.contact.nodeId 5 [enr0 17 1, enr0 2 1] ↔
        e ∈ [enr0 17 1, enr0 2 1] ∧
        log2Distance ar2.contact.nodeId e.nodeId = (if (5 : Nat) ≠ 0 then some 5 else none)) ∧
    (handleRpcResponse s2st { id := 7, body := .nodes 1 [enr0 17 1, enr0 2 1] }).1.banList =
      (if (5 : Nat) ≠ 0 ∧
          (filterByDistance ar2.contact.nodeId 5 [enr0 17 1, enr0 2 1]).length <
            ([enr0 17 1, enr0 2 1] : List Enr).length
       then addr2 :: s2st.banList else s2st.banList) ∧
    (¬ 1 < 1 →
      (handleRpcResponse s2st { id := 7, body := .nodes 1 [enr0 17 1, enr0 2 1] }).2 =
        ((filterByDistance ar2.contact.nodeId 5 [enr0 17 1, enr0 2 1]).filter
          (fun e => e.nodeId != s2st.localEnr.nodeId)).map
            (fun e => Out.ev (.discoveredE e))) :=
  handleRpcResponse_filter_ban s2st 7 ar2 1 [enr0 17 1, enr0 2 1] 5 addr2
    (by decide) (by decide) (by decide) (by decide)

/-- Every per-sender NODES accumulator holds a fragment count of at most 5. -/
def accBound (s : ServiceState) : Prop :=
  ∀ p ∈ s.activeNodesResponses, (p : Nat × NodesAcc).2.count ≤ 5

instance accBound_decidable (s : ServiceState) : Decidable (accBound s) :=
  inferInstanceAs (Decidable (∀ p ∈ s.activeNodesResponses, (p : Nat × NodesAcc).2.count ≤ 5))

theorem discovered_acc_mem (s : ServiceState) (src : Nat) (enrs : List Enr) (qid : Option Nat)
    (p : Nat × NodesAcc) (hp : p ∈ (discovered s src enrs qid).1.activeNodesResponses) :
    p ∈ s.activeNodesResponses := by
  rw [(discovered_proj s src enrs qid).2.2.1] at hp
  exact hp

theorem handleNodes_accBound (s0 : ServiceState) (id : Nat) (ar : ActiveRequest)
    (d total : Nat) (ns : List Enr) (hs : accBound s0) :
    accBound (handleNodes s0 id ar d total ns).1 := by
  unfold handleNodes
  dsimp only
  split
  · split
    · exact hs
    · exact hs
  · obtain ⟨bl, hbl⟩ := banIf_shape
      (d ≠ 0 ∧ (filterByDistance ar.contact.nodeId d ns).length < ns.length) s0 ar.contact
    rw [hbl]
    dsimp only
    split
    · split
      · rename_i hcond
        intro p hp
        rcases mem_ainsert _ _ _ _ hp with rfl | hp
        · exact Nat.succ_le_of_lt hcond.1
        · exact hs p (mem_aremove _ _ _ hp)
      · intro p hp
        exact hs p (mem_aremove _ _ _ (mem_aremove _ _ _ (discovered_acc_mem _ _ _ _ p hp)))
    · intro p hp
      exact hs p (mem_aremove _ _ _ (discovered_acc_mem _ _ _ _ p hp))

theorem handleRpcResponse_accBound_aux (s : ServiceState) (resp : Response) (hs : accBound s) :
    accBound (handleRpcResponse s resp).1 := by
  unfold handleRpcResponse
  dsimp only
  cases hl : alookup s.activeRequests resp.id with
  | none => exact hs
  | some ar =>
    dsimp only
    split
    · split
      · exact handleNodes_accBound _ _ _ _ _ _ (fun p hp => hs p hp)
      · intro p hp
        rw [(handlePong_proj _ _ _ _ _).1] at hp
        exact hs p hp
      · intro p hp
        exact hs p hp
    · intro p hp
      exact hs p hp

def peer3 : Enr := enr0 0 1

def ar3 : ActiveRequest :=
  { contact := .enr peer3, body := .findNode 9, queryId := none, hasCallback := false }

def s3st : ServiceState := { baseState with activeRequests := [(9, ar3)] }

/-- Fragment k of a NODES response declaring total = 7 fragments. -/
def frag (k : Nat) : Response := { id := 9, body := .nodes 7 [enr0 (256 + k) 1] }

def frags7 : List Response := [frag 0, frag 1, frag 2, frag 3, frag 4, frag 5, frag 6]

/-- C3: the per-sender NODES accumulator never exceeds 5 fragments: the count
    bound is preserved by every handle_rpc_response step, and a peer declaring
    total = 7 and sending 7 fragments gets exactly the first 5 fragments'
    nodes delivered to discovered, the remaining 2 fragments being dropped
    (the request entry is gone once 5 fragments were accepted). -/
theorem nodesAggregation_bounded :
    (∀ (s : ServiceState) (resp : Response), accBound s →
      accBound (handleRpcResponse s resp).1) ∧
    (runResponses s3st frags7).2 =
      [Out.ev (.discoveredE (enr0 256 1)), Out.ev (.discoveredE (enr0 257 1)),
       Out.ev (.discoveredE (enr0 258 1)), Out.ev (.discoveredE (enr0 259 1)),
       Out.ev (.discoveredE (enr0 260 1))] ∧
    (runResponses s3st frags7).1.activeNodesResponses = [] ∧
    (runResponses s3st frags7).1.activeRequests = [] :=
  ⟨fun s resp hs => handleRpcResponse_accBound_aux s resp hs, by decide, by decide, by decide⟩

/-- C3 (witness). -/
theorem nodesAggregation_bounded_witness :
    accBound s3st ∧ accBound (handleRpcResponse s3st (frag 0)).1 :=
  ⟨by decide, nodesAggregation_bounded.1 s3st (frag 0) (by decide)⟩

theorem pingConnectedPeers_proj (s : ServiceState) :
    (pingConnectedPeers s).1.banList = s.banList ∧
    (pingConnectedPeers s).1.localEnr = s.localEnr ∧
    (pingConnectedPeers s).1.ipVotes = s.ipVotes ∧
    (pingConnectedPeers s).1.activeNodesResponses = s.activeNodesResponses ∧
    (pingConnectedPeers s).1.queries = s.queries ∧
    (pingConnectedPeers s).1.kbuckets = s.kbuckets ∧
    (pingConnectedPeers s).1.config = s.config :=
  pingList_proj _ s

theorem pongVote_majority (s0 : ServiceState) (n : Nat) (sock : Socket) (v : IpVote)
    (m : Socket) (hv : s0.ipVotes = some v) (hm : (v.insert n sock).majority = some m)
    (hne : some m ≠ s0.localEnr.udp) :
    pongVote s0 n sock =
      ((pingConnectedPeers
          { s0 with ipVotes := some (v.insert n sock),
                    localEnr := s0.localEnr.setUdpSocket m }).1,
       Out.ev (.socketUpdated m) ::
         (pingConnectedPeers
           { s0 with ipVotes := some (v.insert n sock),
                     localEnr := s0.localEnr.setUdpSocket m }).2) := by
  unfold pongVote
  rw [hv]
  dsimp only
  rw [hm]
  dsimp only
  rw [if_pos hne]

theorem handlePong_majority (s0 : ServiceState) (ar : ActiveRequest) (enrSeq ip port : Nat)
    (v : IpVote) (m : Socket)
    (hv : s0.ipVotes = some v)
    (hm : (v.insert ar.contact.nodeId { ip := ip, port := port }).majority = some m)
    (hne : some m ≠ s0.localEnr.udp) :
    (handlePong s0 ar enrSeq ip port).1.ipVotes =
      some (v.insert ar.contact.nodeId { ip := ip, port := port }) ∧
    Out.ev (.socketUpdated m) ∈ (handlePong s0 ar enrSeq ip port).2 ∧
    (handlePong s0 ar enrSeq ip port).1.localEnr.udp = some m ∧
    (handlePong s0 ar enrSeq ip port).1.localEnr.seq = s0.localEnr.seq + 1 ∧
    (∀ b ∈ s0.kbuckets.entries, b.pending = false → b.status = .connected →
      ∃ i, Out.request (.enr b.enr) { id := i, body := .ping (s0.localEnr.seq + 1) } ∈
        (handlePong s0 ar enrSeq ip port).2) := by
  unfold handlePong
  dsimp only
  rw [pongVote_majority s0 ar.contact.nodeId { ip := ip, port := port } v m hv hm hne]
  dsimp only
  cases hf : findEnr
      (pingConnectedPeers
        { s0 with ipVotes := some (v.insert ar.contact.nodeId { ip := ip, port := port }),
                  localEnr := s0.localEnr.setUdpSocket m }).1 ar.contact.nodeId with
  | none =>
    dsimp only
    refine ⟨(pingList_proj _ _).2.2.1, List.mem_cons_self _ _, ?_, ?_, ?_⟩
    · exact congrArg Enr.udp ((pingConnectedPeers_proj _).2.1)
    · exact congrArg Enr.seq ((pingConnectedPeers_proj _).2.1)
    · intro b hb hp hst
      have hmem : b ∈ s0.kbuckets.entries.filter
          (fun b => !b.pending && (b.status == NodeStatus.connected)) :=
        List.mem_filter.mpr ⟨hb, by simp [hp, hst]⟩
      obtain ⟨i, hi⟩ := pingList_mem _ _ b.enr (List.mem_map_of_mem _ hmem)
      exact ⟨i, List.mem_cons_of_mem _ hi⟩
  | some enr =>
    dsimp only
    by_cases hseq : enr.seq < enrSeq
    · rw [if_pos hseq]
      refine ⟨((connectionUpdated_proj _ _ _ _).2.2.1).trans (pingList_proj _ _).2.2.1, ?_,
        ?_, ?_, ?_⟩
      · exact List.mem_append_left _ (List.mem_append_left _ (List.mem_cons_self _ _))
      · rw [(connectionUpdated_proj _ _ _ _).2.2.2.1]
        exact congrArg Enr.udp ((pingConnectedPeers_proj _).2.1)
      · rw [(connectionUpdated_proj _ _ _ _).2.2.2.1]
        exact congrArg Enr.seq ((pingConnectedPeers_proj _).2.1)
      · intro b hb hp hst
        have hmem : b ∈ s0.kbuckets.entries.filter
            (fun b => !b.pending && (b.status == NodeStatus.connected)) :=
          List.mem_filter.mpr ⟨hb, by simp [hp, hst]⟩
        obtain ⟨i, hi⟩ := pingList_mem _ _ b.enr (List.mem_map_of_mem _ hmem)
        exact ⟨i, List.mem_append_left _
          (List.mem_append_left _ (List.mem_cons_of_mem _ hi))⟩
    · rw [if_neg hseq]
      refine ⟨((connectionUpdated_proj _ _ _ _).2.2.1).trans (pingList_proj _ _).2.2.1, ?_,
        ?_, ?_, ?_⟩
      · exact List.mem_append_left _ (List.mem_append_left _ (List.mem_cons_self _ _))
      · rw [(connectionUpdated_proj _ _ _ _).2.2.2.1]
        exact congrArg Enr.udp ((pingConnectedPeers_proj _).2.1)
      · rw [(connectionUpdated_proj _ _ _ _).2.2.2.1]
        exact congrArg Enr.seq ((pingConnectedPeers_proj _).2.1)
      · intro b hb hp hst
        have hmem : b ∈ s0.kbuckets.entries.filter
            (fun b => !b.pending && (b.status == NodeStatus.connected)) :=
          List.mem_filter.mpr ⟨hb, by simp [hp, hst]⟩
        obtain ⟨i, hi⟩ := pingList_mem _ _ b.enr (List.mem_map_of_mem _ hmem)
        exact ⟨i, List.mem_append_left _
          (List.mem_append_left _ (List.mem_cons_of_mem _ hi))⟩

/-- C6: processing a Pong response to a recorded Ping with ip votes enabled
    inserts the vote (node id, reported socket) into the pool; and when the
    pool's majority then differs from the local ENR's udp socket, a
    SocketUpdated event is emitted, the local ENR's udp endpoint is rewritten
    to the majority socket with its seq incremented by one, and a Ping
    carrying the new seq is sent to every Connected routing-table entry. -/
theorem handleRpcResponse_pong_vote (s : ServiceState) (id : Nat) (ar : ActiveRequest)
    (enrSeq ip port qs : Nat) (v : IpVote) (m : Socket)
    (hl : alookup s.activeRequests id = some ar) (hb : ar.body = .ping qs)
    (hv : s.ipVotes = some v)
    (hm : (v.insert ar.contact.nodeId { ip := ip, port := port }).majority = some m)
    (hne : some m ≠ s.localEnr.udp) :
    (handleRpcResponse s { id := id, body := .pong enrSeq ip port }).1.ipVotes =
      some (v.insert ar.contact.nodeId { ip := ip, port := port }) ∧
    Out.ev (.socketUpdated m) ∈
      (handleRpcResponse s { id := id, body := .pong enrSeq ip port }).2 ∧
    (handleRpcResponse s { id := id, body := .pong enrSeq ip port }).1.localEnr.udp = some m ∧
    (handleRpcResponse s { id := id, body := .pong enrSeq ip port }).1.localEnr.seq =
      s.localEnr.seq + 1 ∧
    (∀ b ∈ s.kbuckets.entries, b.pending = false → b.status = .connected →
      ∃ i, Out.request (.enr b.enr) { id := i, body := .ping (s.localEnr.seq + 1) } ∈
        (handleRpcResponse s { id := id, body := .pong enrSeq ip port }).2) := by
  rw [handleRpcResponse_pong_eq s id ar enrSeq ip port qs hl hb]
  exact handlePong_majority _ ar enrSeq ip port v m hv hm hne

def sockM : Socket := { ip := 203, port := 31000 }

def ar6 : ActiveRequest :=
  { contact := .enr (enr0 5 3), body := .ping 1, queryId := none, hasCallback := false }

def v6 : IpVote := { minSupport := 2, votes := [(8, sockM)] }

def s6 : ServiceState :=
  { baseState with
      activeRequests := [(11, ar6)],
      ipVotes := some v6,
      kbuckets :=
        { localId := 999, bucketIpLimit := 10,
          entries := [{ id := 5, enr := enr0 5 3, status := .connected, pending := false }] } }

/-- C6 (witness): with minimum support 2, a second vote for 203:31000 rotates
    the local ENR's udp socket, bumps its seq and re-pings the connected peer. -/
theorem handleRpcResponse_pong_vote_witness :
    (handleRpcResponse s6 { id := 11, body := .pong 1 203 31000 }).1.ipVotes =
      some (v6.insert ar6.contact.nodeId { ip := 203, port := 31000 }) ∧
    Out.ev (.socketUpdated sockM) ∈
      (handleRpcResponse s6 { id := 11, body := .pong 1 203 31000 }).2 ∧
    (handleRpcResponse s6 { id := 11, body := .pong 1 203 31000 }).1.localEnr.udp =
      some sockM ∧
    (handleRpcResponse s6 { id := 11, body := .pong 1 203 31000 }).1.localEnr.seq =
      s6.localEnr.seq + 1 ∧
    (∀ b ∈ s6.kbuckets.entries, b.pending = false → b.status = .connected →
      ∃ i, Out.request (.enr b.enr) { id := i, body := .ping (s6.localEnr.seq + 1) } ∈
        (handleRpcResponse s6 { id := 11, body := .pong 1 203 31000 }).2) :=
  handleRpcResponse_pong_vote s6 11 ar6 1 203 31000 1 v6 sockM
    (by decide) (by decide) (by decide) (by decide) (by decide)

/- C8 / C10: routing-table shape and seq monotonicity under discovered. -/

/-- The id / status / pending profile of the routing table, forgetting the
    stored ENR values. -/
def kbProfile (kb : KBuckets) : List (Nat × NodeStatus × Bool) :=
  kb.entries.map (fun b => (b.id, b.status, b.pending))

theorem updEntries_profile (f : BEntry → BEntry)
    (hf : ∀ b, (f b).id = b.id ∧ (f b).status = b.status ∧ (f b).pending = b.pending)
    (l : List BEntry) (j : Nat) :
    (updEntries f l j).map (fun b => (b.id, b.status, b.pending)) =
      l.map (fun b => (b.id, b.status, b.pending)) := by
  induction l with
  | nil => rfl
  | cons b rest ih =>
    by_cases hb : b.id = j <;>
      simp [updEntries, hb, ih, (hf b).1, (hf b).2.1, (hf b).2.2]

theorem updateValue_profile (kb : KBuckets) (j : Nat) (e : Enr) :
    kbProfile (kb.updateValue j e) = kbProfile kb :=
  updEntries_profile (fun b => { b with enr := e }) (fun _ => ⟨rfl, rfl, rfl⟩) kb.entries j

theorem discoveredStep_profile (cfg : Config) (kb : KBuckets) (e : Enr) :
    kbProfile (discoveredStep cfg kb e) = kbProfile kb ∧
    (discoveredStep cfg kb e).localId = kb.localId := by
  unfold discoveredStep
  repeat' split
  all_goals first
    | exact ⟨rfl, rfl⟩
    | exact ⟨updateValue_profile _ _ _, rfl⟩

theorem discoveredKb_profile (cfg : Config) (l : List Enr) : ∀ kb : KBuckets,
    kbProfile (discoveredKb cfg kb l) = kbProfile kb ∧
    (discoveredKb cfg kb l).localId = kb.localId := by
  induction l with
  | nil => intro kb; exact ⟨rfl, rfl⟩
  | cons e rest ih =>
    intro kb
    obtain ⟨h1, h2⟩ := discoveredStep_profile cfg kb e
    obtain ⟨h3, h4⟩ := ih (discoveredStep cfg kb e)
    exact ⟨h3.trans h1, h4.trans h2⟩

theorem discoveredStep_find (cfg : Config) (kb : KBuckets) (x : Enr) (n : Nat) (b : BEntry)
    (hfe : findEntry kb.entries n = some b) :
    findEntry (discoveredStep cfg kb x).entries n = some b ∨
    (x.nodeId = n ∧ b.enr.seq < x.seq ∧
      findEntry (discoveredStep cfg kb x).entries n = some { b with enr := x }) := by
  unfold discoveredStep
  split
  · split
    · cases hv : kb.entryView x.nodeId with
      | present old st =>
        dsimp only
        by_cases hseq : old.seq < x.seq
        · rw [if_pos hseq]
          by_cases hxn : x.nodeId = n
          · obtain ⟨hj, b0, hfe0, hp0, he0, hst0⟩ := entryView_present_elim _ _ _ _ hv
            rw [hxn] at hfe0
            rw [hfe0] at hfe
            cases hfe
            refine Or.inr ⟨hxn, he0 ▸ hseq, ?_⟩
            show findEntry (updEntries (fun b => { b with enr := x }) kb.entries x.nodeId) n = _
            rw [hxn, findEntry_updEntries_self (fun b => { b with enr := x }) (fun _ => rfl),
              hfe0]
            rfl
          · refine Or.inl ?_
            show findEntry (updEntries (fun b => { b with enr := x }) kb.entries x.nodeId) n = _
            rw [findEntry_updEntries_ne (fun b => { b with enr := x }) (fun _ => rfl) _ _ _
              (fun e => hxn e.symm)]
            exact hfe
        · rw [if_neg hseq]
          exact Or.inl hfe
      | pending old st =>
        dsimp only
        by_cases hseq : old.seq < x.seq
        · rw [if_pos hseq]
          by_cases hxn : x.nodeId = n
          · obtain ⟨hj, b0, hfe0, hp0, he0, hst0⟩ := entryView_pending_elim _ _ _ _ hv
            rw [hxn] at hfe0
            rw [hfe0] at hfe
            cases hfe
            refine Or.inr ⟨hxn, he0 ▸ hseq, ?_⟩
            show findEntry (updEntries (fun b => { b with enr := x }) kb.entries x.nodeId) n = _
            rw [hxn, findEntry_updEntries_self (fun b => { b with enr := x }) (fun _ => rfl),
              hfe0]
            rfl
          · refine Or.inl ?_
            show findEntry (updEntries (fun b => { b with enr := x }) kb.entries x.nodeId) n = _
            rw [findEntry_updEntries_ne (fun b => { b with enr := x }) (fun _ => rfl) _ _ _
              (fun e => hxn e.symm)]
            exact hfe
        · rw [if_neg hseq]
          exact Or.inl hfe
      | absent => exact Or.inl hfe
      | selfEntry => exact Or.inl hfe
    · exact Or.inl hfe
  · exact Or.inl hfe

theorem discoveredKb_find (cfg : Config) (l : List Enr) : ∀ (kb : KBuckets) (n : Nat)
    (b : BEntry), findEntry kb.entries n = some b →
    ∃ b', findEntry (discoveredKb cfg kb l).entries n = some b' ∧
      b'.id = b.id ∧ b'.status = b.status ∧ b'.pending = b.pending ∧
      (b'.enr = b.enr ∨ b.enr.seq < b'.enr.seq) := by
  induction l with
  | nil => intro kb n b h; exact ⟨b, h, rfl, rfl, rfl, Or.inl rfl⟩
  | cons x rest ih =>
    intro kb n b h
    rcases discoveredStep_find cfg kb x n b h with h1 | ⟨hxn, hseq, h1⟩
    · exact ih _ n b h1
    · obtain ⟨b', hb', hid, hst, hp, hrel⟩ := ih _ n { b with enr := x } h1
      refine ⟨b', hb', hid, hst, hp, Or.inr ?_⟩
      rcases hrel with h2 | h2
      · rw [h2]
        exact hseq
      · exact Nat.lt_trans hseq h2

theorem discoveredKb_find_le (cfg : Config) (l : List Enr) : ∀ (kb : KBuckets) (n : Nat)
    (b : BEntry), findEntry kb.entries n = some b → (∀ x ∈ l, x.seq ≤ b.enr.seq) →
    findEntry (discoveredKb cfg kb l).entries n = some b := by
  induction l with
  | nil => intro kb n b h _; exact h
  | cons x rest ih =>
    intro kb n b h hle
    rcases discoveredStep_find cfg kb x n b h with h1 | ⟨hxn, hseq, h1⟩
    · exact ih _ n b h1 (fun y hy => hle y (List.mem_cons_of_mem _ hy))
    · exact absurd hseq (Nat.not_lt.mpr (hle x (List.mem_cons_self _ _)))

/-- C8: discovered replaces a stored routing-table ENR only by one with a
    strictly greater seq: the entry keeps its id, status and pending flag, its
    stored ENR either stays or its seq strictly increases, and when every
    incoming ENR has a seq at most the stored one the entry is untouched. -/
theorem discovered_seq_monotonic (s : ServiceState) (src : Nat) (enrs : List Enr)
    (qid : Option Nat) (n : Nat) (b : BEntry)
    (hfe : findEntry s.kbuckets.entries n = some b) :
    (∃ b', findEntry (discovered s src enrs qid).1.kbuckets.entries n = some b' ∧
      b'.id = b.id ∧ b'.status = b.status ∧ b'.pending = b.pending ∧
      (b'.enr = b.enr ∨ b.enr.seq < b'.enr.seq)) ∧
    ((∀ x ∈ enrs, x.seq ≤ b.enr.seq) →
      findEntry (discovered s src enrs qid).1.kbuckets.entries n = some b) := by
  constructor
  · rw [discovered_kbuckets]
    exact discoveredKb_find _ _ _ n b hfe
  · intro hle
    rw [discovered_kbuckets]
    exact discoveredKb_find_le _ _ _ n b hfe
      (fun x hx => hle x (List.mem_filter.mp hx).1)

def b8 : BEntry := { id := 5, enr := e5, status := .connected, pending := false }

/-- C8 (witness): an incoming copy of the stored ENR with a lower seq leaves
    the stored entry unchanged. -/
theorem discovered_seq_monotonic_witness :
    findEntry (discovered s5 1 [enr0 5 2] none).1.kbuckets.entries 5 = some b8 :=
  (discovered_seq_monotonic s5 1 [enr0 5 2] none 5 b8 (by decide)).2 (by decide)

/-- C10: discovered never changes the id / status / pending profile of the
    routing table: it may rewrite stored ENR values of existing entries but
    never inserts or removes a node; and connection_updated with Disconnected
    status leaves an absent node absent (insertions happen only for Connected
    peers, or through the separate add_enr API). -/
theorem discovered_frame_effect (s : ServiceState) (src : Nat) (enrs : List Enr)
    (qid : Option Nat) :
    kbProfile (discovered s src enrs qid).1.kbuckets = kbProfile s.kbuckets ∧
    (∀ (n : Nat) (enrOpt : Option Enr), s.kbuckets.entryView n = .absent →
      (connectionUpdated s n enrOpt .disconnected).1.kbuckets.entryView n = .absent) := by
  constructor
  · rw [discovered_kbuckets]
    exact (discoveredKb_profile _ _ _).1
  · intro n enrOpt hab
    unfold connectionUpdated connectionUpdatedEntry
    cases enrOpt with
    | none =>
      dsimp only
      rw [hab]
      dsimp only
      rw [if_neg (by simp : ¬ (NodeStatus.disconnected = NodeStatus.connected))]
      exact hab
    | some enr =>
      dsimp only
      split
      · exact hab
      · rw [ite_self NodeStatus.disconnected]
        rw [hab]
        dsimp only
        rw [if_neg (by simp : ¬ (NodeStatus.disconnected = NodeStatus.connected))]
        exact hab

/-- C10 (witness). -/
theorem discovered_frame_effect_witness :
    kbProfile (discovered baseState 1 [enr0 23 4] none).1.kbuckets =
      kbProfile baseState.kbuckets ∧
    (connectionUpdated baseState 77 none .disconnected).1.kbuckets.entryView 77 = .absent :=
  ⟨(discovered_frame_effect baseState 1 [enr0 23 4] none).1,
   (discovered_frame_effect baseState 1 [enr0 23 4] none).2 77 none (by decide)⟩

/- C7 helper lemmas. -/

theorem connectionUpdated_none_disc_present (s : ServiceState) (n : Nat) (e : Enr)
    (st : NodeStatus) (h : s.kbuckets.entryView n = .present e st) :
    (connectionUpdated s n none .disconnected).1.kbuckets.entryView n =
      .present e .disconnected := by
  unfold connectionUpdated connectionUpdatedEntry
  dsimp only
  rw [h]
  dsimp only
  by_cases hst : st = NodeStatus.disconnected
  · rw [if_pos hst]
    exact hst ▸ h
  · rw [if_neg hst]
    exact entryView_present_updateStatus _ _ _ _ _ h

theorem connectionUpdated_none_disc_pending (s : ServiceState) (n : Nat) (e : Enr)
    (st : NodeStatus) (h : s.kbuckets.entryView n = .pending e st) :
    (connectionUpdated s n none .disconnected).1.kbuckets.entryView n =
      .pending e .disconnected := by
  unfold connectionUpdated connectionUpdatedEntry
  dsimp only
  rw [h]
  dsimp only
  by_cases hst : st = NodeStatus.disconnected
  · rw [if_pos hst]
    exact hst ▸ h
  · rw [if_neg hst]
    exact entryView_pending_updateStatus _ _ _ _ _ h

theorem connectionUpdated_none_outs (s : ServiceState) (n : Nat) (st : NodeStatus) :
    (connectionUpdated s n none st).2 = [] := by
  unfold connectionUpdated connectionUpdatedEntry
  dsimp only
  repeat' split
  all_goals rfl

theorem discoveredKb_entryView_present (cfg : Config) (l : List Enr) (kb : KBuckets) (n : Nat)
    (e : Enr) (st : NodeStatus) (h : kb.entryView n = .present e st) :
    ∃ e1, (discoveredKb cfg kb l).entryView n = .present e1 st := by
  obtain ⟨hj, b, hfe, hp, he, hst⟩ := entryView_present_elim _ _ _ _ h
  obtain ⟨b', hb', hid, hstat, hpend, _⟩ := discoveredKb_find cfg l kb n b hfe
  have hj' : n ≠ (discoveredKb cfg kb l).localId := by
    rw [(discoveredKb_profile cfg l kb).2]
    exact hj
  have hv := entryView_of_findEntry (discoveredKb cfg kb l) n b' hj' hb'
  refine ⟨b'.enr, ?_⟩
  rw [hv, hpend, hp, if_neg (by simp : ¬ (false = true)), hstat, hst]

theorem discoveredKb_entryView_pending (cfg : Config) (l : List Enr) (kb : KBuckets) (n : Nat)
    (e : Enr) (st : NodeStatus) (h : kb.entryView n = .pending e st) :
    ∃ e1, (discoveredKb cfg kb l).entryView n = .pending e1 st := by
  obtain ⟨hj, b, hfe, hp, he, hst⟩ := entryView_pending_elim _ _ _ _ h
  obtain ⟨b', hb', hid, hstat, hpend, _⟩ := discoveredKb_find cfg l kb n b hfe
  have hj' : n ≠ (discoveredKb cfg kb l).localId := by
    rw [(discoveredKb_profile cfg l kb).2]
    exact hj
  have hv := entryView_of_findEntry (discoveredKb cfg kb l) n b' hj' hb'
  refine ⟨b'.enr, ?_⟩
  rw [hv, hpend, hp, if_pos rfl, hstat, hst]

theorem rpcFailureStep_entry_present (s0 : ServiceState) (ar : ActiveRequest) (e : Enr)
    (st : NodeStatus) (h : s0.kbuckets.entryView ar.contact.nodeId = .present e st) :
    ∃ e1, (rpcFailureStep s0 ar).1.kbuckets.entryView ar.contact.nodeId = .present e1 st := by
  unfold rpcFailureStep
  dsimp only
  repeat' split
  all_goals first
    | exact ⟨e, h⟩
    | (rw [discovered_kbuckets]
       exact discoveredKb_entryView_present _ _ _ _ e st h)
    | (rw [(queryOnFailure_requests _ _ _).2.2.2]
       exact ⟨e, h⟩)

theorem rpcFailureStep_entry_pending (s0 : ServiceState) (ar : ActiveRequest) (e : Enr)
    (st : NodeStatus) (h : s0.kbuckets.entryView ar.contact.nodeId = .pending e st) :
    ∃ e1, (rpcFailureStep s0 ar).1.kbuckets.entryView ar.contact.nodeId = .pending e1 st := by
  unfold rpcFailureStep
  dsimp only
  repeat' split
  all_goals first
    | exact ⟨e, h⟩
    | (rw [discovered_kbuckets]
       exact discoveredKb_entryView_pending _ _ _ _ e st h)
    | (rw [(queryOnFailure_requests _ _ _).2.2.2]
       exact ⟨e, h⟩)

/-- C7 (amended): when rpc_failure removes a failed ActiveRequest: if the
    request carried a user callback, only None is returned on the callback and
    nothing else happens; otherwise the peer's Present or Pending
    routing-table entry is downgraded to Disconnected; a failed FindNode whose
    peer has a stored NODES accumulator has the accumulator dropped and, when
    it is non-empty, exactly its nodes delivered to discovered; and when no
    accumulator applies, the failure is recorded on the associated query.
    (The unamended claim fails on the callback case, which skips the
    downgrade, and on an empty stored accumulator, which skips on_failure.) -/
theorem rpcFailure_spec (s : ServiceState) (id : Nat) (ar : ActiveRequest)
    (hl : alookup s.activeRequests id = some ar) :
    (ar.hasCallback = true →
      rpcFailure s id =
        ({ s with activeRequests := aremove s.activeRequests id }, [.callbackRet none])) ∧
    (ar.hasCallback = false →
      (∀ e st, s.kbuckets.entryView ar.contact.nodeId = .present e st →
        ∃ e1, (rpcFailure s id).1.kbuckets.entryView ar.contact.nodeId =
          .present e1 .disconnected) ∧
      (∀ e st, s.kbuckets.entryView ar.contact.nodeId = .pending e st →
        ∃ e1, (rpcFailure s id).1.kbuckets.entryView ar.contact.nodeId =
          .pending e1 .disconnected) ∧
      (∀ d acc, ar.body = .findNode d →
        alookup s.activeNodesResponses ar.contact.nodeId = some acc →
        alookup (rpcFailure s id).1.activeNodesResponses ar.contact.nodeId = none ∧
        (acc.received ≠ [] →
          (rpcFailure s id).2 =
            (acc.received.filter (fun e => e.nodeId != s.localEnr.nodeId)).map
              (fun e => Out.ev (.discoveredE e)))) ∧
      (∀ qid q,
        (∀ d, ar.body = .findNode d →
          alookup s.activeNodesResponses ar.contact.nodeId = none) →
        ar.queryId = some qid → alookup s.queries qid = some q →
        alookup (rpcFailure s id).1.queries qid =
          some { q with failed := q.failed ++ [ar.contact.nodeId] })) := by
  constructor
  · intro hcb
    unfold rpcFailure
    rw [hl]
    dsimp only
    rw [if_pos hcb]
  · intro hcb
    have hred : rpcFailure s id =
        ((connectionUpdated
            (rpcFailureStep { s with activeRequests := aremove s.activeRequests id } ar).1
            ar.contact.nodeId none .disconnected).1,
         (rpcFailureStep { s with activeRequests := aremove s.activeRequests id } ar).2 ++
           (connectionUpdated
             (rpcFailureStep { s with activeRequests := aremove s.activeRequests id } ar).1
             ar.contact.nodeId none .disconnected).2) := by
      unfold rpcFailure
      rw [hl]
      dsimp only
      rw [if_neg (by simp [hcb] : ¬ (ar.hasCallback = true))]
    refine ⟨?_, ?_, ?_, ?_⟩
    · intro e st hview
      obtain ⟨e1, hstep⟩ := rpcFailureStep_entry_present
        { s with activeRequests := aremove s.activeRequests id } ar e st hview
      refine ⟨e1, ?_⟩
      rw [hred]
      exact connectionUpdated_none_disc_present _ _ _ _ hstep
    · intro e st hview
      obtain ⟨e1, hstep⟩ := rpcFailureStep_entry_pending
        { s with activeRequests := aremove s.activeRequests id } ar e st hview
      refine ⟨e1, ?_⟩
      rw [hred]
      exact connectionUpdated_none_disc_pending _ _ _ _ hstep
    · intro d acc harb hacc
      have hstep : alookup
          (ServiceState.activeNodesResponses
            (rpcFailureStep { s with activeRequests := aremove s.activeRequests id } ar).1)
          ar.contact.nodeId = none ∧
          (acc.received ≠ [] →
            (rpcFailureStep { s with activeRequests := aremove s.activeRequests id } ar).2 =
              (acc.received.filter (fun e => e.nodeId != s.localEnr.nodeId)).map
                (fun e => Out.ev (.discoveredE e))) := by
        unfold rpcFailureStep
        rw [harb]
        dsimp only
        rw [hacc]
        dsimp only
        split
        · rename_i hemp
          refine ⟨alookup_aremove_self _ _, fun hne => absurd (List.isEmpty_iff.mp hemp) hne⟩
        · constructor
          · rw [(discovered_proj _ _ _ _).2.2.1]
            exact alookup_aremove_self _ _
          · intro hne
            rw [discovered_outs]
      constructor
      · rw [hred]
        rw [(connectionUpdated_proj _ _ _ _).2.1]
        exact hstep.1
      · intro hne
        rw [hred]
        dsimp only
        rw [connectionUpdated_none_outs, List.append_nil]
        exact hstep.2 hne
    · intro qid q hnoacc hqid hq
      have hstep : alookup
          (ServiceState.queries
            (rpcFailureStep { s with activeRequests := aremove s.activeRequests id } ar).1)
          qid = some { q with failed := q.failed ++ [ar.contact.nodeId] } := by
        unfold rpcFailureStep
        dsimp only
        cases harb : ar.body with
        | findNode d =>
          dsimp only
          rw [hnoacc d harb]
          dsimp only
          rw [hqid]
          dsimp only
          unfold queryOnFailure
          dsimp only
          rw [hq]
          dsimp only
          exact alookup_ainsert_self _ _ _
        | ping pq =>
          dsimp only
          rw [hqid]
          dsimp only
          unfold queryOnFailure
          dsimp only
          rw [hq]
          dsimp only
          exact alookup_ainsert_self _ _ _
      rw [hred]
      rw [(connectionUpdated_proj _ _ _ _).2.2.2.2.1]
      exact hstep

def peerEnr7 : Enr := enr0 5 3

def arCb : ActiveRequest :=
  { contact := .enr peerEnr7, body := .findNode 0, queryId := none, hasCallback := true }

def arEm : ActiveRequest :=
  { contact := .enr peerEnr7, body := .findNode 7, queryId := some 1, hasCallback := false }

def sCb : ServiceState :=
  { baseState with
      kbuckets :=
        { localId := 999, bucketIpLimit := 10,
          entries := [{ id := 5, enr := peerEnr7, status := .connected, pending := false }] },
      activeRequests := [(42, arCb)] }

def sEm : ServiceState :=
  { baseState with
      activeRequests := [(43, arEm)],
      activeNodesResponses := [(5, { count := 2, received := [] })],
      queries := [(1, { untrustedEnrs := [], failed := [], succeeded := [] })] }

/-- C7 (counterexample): the claim as stated is false on the code: a failed
    request that carried a user callback leaves the peer's entry Connected
    (no downgrade to Disconnected happens), and a failed FindNode whose peer
    has a stored but empty accumulator does not record on_failure on the
    associated query (its failed list stays empty). -/
theorem rpcFailure_claim_counterexample :
    (rpcFailure sCb 42).1.kbuckets.entryView 5 = EntryView.present peerEnr7 .connected ∧
    alookup (rpcFailure sEm 43).1.queries 1 =
      some { untrustedEnrs := [], failed := [], succeeded := [] } := by decide

def arW7 : ActiveRequest :=
  { contact := .enr peerEnr7, body := .findNode 7, queryId := none, hasCallback := false }

def sW7 : ServiceState :=
  { baseState with
      kbuckets :=
        { localId := 999, bucketIpLimit := 10,
          entries := [{ id := 5, enr := peerEnr7, status := .connected, pending := false }] },
      activeRequests := [(44, arW7)],
      activeNodesResponses := [(5, { count := 3, received := [enr0 300 1] })] }

/-- C7 (witness): a failed callback-free FindNode with a non-empty partial
    accumulator downgrades the peer and delivers the partial nodes. -/
theorem rpcFailure_spec_witness :
    (∃ e1, (rpcFailure sW7 44).1.kbuckets.entryView 5 = .present e1 .disconnected) ∧
    alookup (rpcFailure sW7 44).1.activeNodesResponses 5 = none ∧
    (rpcFailure sW7 44).2 =
      (([enr0 300 1] : List Enr).filter (fun e => e.nodeId != sW7.localEnr.nodeId)).map
        (fun e => Out.ev (.discoveredE e)) := by
  have h := (rpcFailure_spec sW7 44 arW7 (by decide)).2 (by decide)
  obtain ⟨hrem, houts⟩ :=
    h.2.2.1 7 { count := 3, received := [enr0 300 1] } (by decide) (by decide)
  exact ⟨h.1 peerEnr7 .connected (by decide), hrem, houts (by decide)⟩
